import Mathlib

/-!
# Travel management API: gates, handlers and their contracts

A shallow embedding of the Express application under `src/`:

* `middleware/auth.js`   : `verifyToken`
* `middleware/rbac.js`   : `requireRole`, `requireSelfOrAdmin` and the fixed-role gates
* `routes/*.js`          : the express-validator chains and the order of the stages
* `controllers/*.js`     : the request handlers
* `models/Vehicle.js`    : the vehicle schema (setters, validators, timestamps)
* `server.js`            : the profile route and the global error handler

A middleware is a function from a request to a `Step` (continue with a request, or send a
response); a handler is a function from a request and a persistence state to a response and
a new state.  The persistence layer is a record of operations (`Persistence`), each of which
may throw; `mongo` is its in-memory instance.  The numbers of a listing are JavaScript
numbers (`JsNumber`, with `roundDouble` for the rounding to a double), and the upper-casing of
strings is a parameter of the code that uses it.
-/

set_option autoImplicit false

namespace TravelApi

/-! ## Strings -/

/-- The JavaScript `str.startsWith(p)`. -/
def startsWith (s p : String) : Bool := p.data.isPrefixOf s.data

/-- The JavaScript `str.slice(n)` for a non-negative `n`. -/
def sliceFrom (s : String) (n : Nat) : String := String.mk (s.data.drop n)

/-- Upper-casing of one ASCII character: the letters `a`..`z` move to `A`..`Z`, every other
character is kept. -/
def upperChar : Char → Char
  | 'a' => 'A' | 'b' => 'B' | 'c' => 'C' | 'd' => 'D' | 'e' => 'E' | 'f' => 'F' | 'g' => 'G'
  | 'h' => 'H' | 'i' => 'I' | 'j' => 'J' | 'k' => 'K' | 'l' => 'L' | 'm' => 'M' | 'n' => 'N'
  | 'o' => 'O' | 'p' => 'P' | 'q' => 'Q' | 'r' => 'R' | 's' => 'S' | 't' => 'T' | 'u' => 'U'
  | 'v' => 'V' | 'w' => 'W' | 'x' => 'X' | 'y' => 'Y' | 'z' => 'Z'
  | c => c

/-- Upper-casing of the ASCII letters of a string: what the JavaScript `str.toUpperCase()`
does to a string of ASCII characters.  The handlers and the store take the upper-casing of
the runtime as a parameter; this function stands for it on the sample data, whose plates are
ASCII. -/
def asciiUpperCase (s : String) : String := String.mk (s.data.map upperChar)

/-- White space as `String.prototype.trim` and the regular expression class `\s` see it. -/
def isSpace (c : Char) : Bool :=
  let n := c.toNat
  (9 ≤ n && n ≤ 13) || n == 32 || n == 160 || n == 5760 || (8192 ≤ n && n ≤ 8202) ||
    n == 8232 || n == 8233 || n == 8239 || n == 8287 || n == 12288 || n == 65279

/-- The JavaScript `str.trim()`. -/
def trim (s : String) : String :=
  String.mk ((s.data.dropWhile isSpace).reverse.dropWhile isSpace).reverse

/-- The digits of a hexadecimal numeral, in both cases. -/
def hexChars : List Char :=
  ['0', '1', '2', '3', '4', '5', '6', '7', '8', '9',
   'a', 'b', 'c', 'd', 'e', 'f', 'A', 'B', 'C', 'D', 'E', 'F']

/-- The digits in which an ObjectId prints itself. -/
def lowerHexChars : List Char :=
  ['0', '1', '2', '3', '4', '5', '6', '7', '8', '9', 'a', 'b', 'c', 'd', 'e', 'f']

/-- Lower-casing of a hexadecimal digit. -/
def lowerHexChar : Char → Char
  | 'A' => 'a'
  | 'B' => 'b'
  | 'C' => 'c'
  | 'D' => 'd'
  | 'E' => 'e'
  | 'F' => 'f'
  | c => c

/-- The validator `isHexadecimal`: one or more hexadecimal digits after an optional prefix
`0x` or `0h`, in either case. -/
def isHexadecimal (s : String) : Bool :=
  let digits := match s.data with
    | '0' :: 'x' :: t => t
    | '0' :: 'X' :: t => t
    | '0' :: 'h' :: t => t
    | '0' :: 'H' :: t => t
    | cs => cs
  !digits.isEmpty && digits.all (fun c => hexChars.contains c)

/-- The validator `isMongoId`: `isHexadecimal` and of length 24. -/
def isMongoId (s : String) : Bool :=
  isHexadecimal s && s.data.length == 24

/-- The strings that cast to an ObjectId: 24 hexadecimal digits. -/
def isHex24 (s : String) : Bool :=
  s.data.all (fun c => hexChars.contains c) && s.data.length == 24

/-- The canonical form of an identifier: 24 lower-case hexadecimal digits. -/
def isCanonicalId (s : String) : Bool :=
  s.data.all (fun c => lowerHexChars.contains c) && s.data.length == 24

/-! ## Data model -/

/-- A database identifier (`mongoose.Schema.Types.ObjectId`), held in its canonical string
form. -/
structure ObjectId where
  hex : String
  canonical : isCanonicalId hex = true
  deriving DecidableEq

/-- The JavaScript `id.toString()`. -/
def ObjectId.toString (o : ObjectId) : String := o.hex

/-- Modelled from the spec: the user document of `models/User.js`, which is not among the
sources.  The spec lists a unique email, a hashed password, a role and a creation timestamp.
`password` is `none` on a document from which a query has projected the field away
(`select("-password")`); a document loaded without projection carries it in memory. -/
structure User where
  _id : ObjectId
  email : String
  password : Option String
  role : String
  createdAt : Nat
  deriving DecidableEq

/-- The projection `select("-password")`. -/
def User.selectMinusPassword (u : User) : User := { u with password := none }

/-- Modelled from the spec: the serialization of a user document by `models/User.js` (not
among the sources) when `res.json` writes it into a response body.  The spec states for the
user record that the password is never returned in any output, so the object written has no
password field. -/
def User.toJSON (u : User) : User := { u with password := none }

/-- A vehicle document of `models/Vehicle.js`; `createdAt` and `updatedAt` come from the
schema option `timestamps: true`. -/
structure Vehicle where
  _id : ObjectId
  make : String
  model : String
  year : Int
  licensePlate : String
  capacity : Int
  status : Option String
  ownerId : ObjectId
  createdAt : Nat
  updatedAt : Nat
  deriving DecidableEq

/-- What `populate("ownerId", "email role")` puts in place of the owner reference. -/
structure OwnerRef where
  _id : ObjectId
  email : String
  role : String
  deriving DecidableEq

/-- A vehicle document after `populate("ownerId", "email role")`: `owner` is `none` when the
reference does not resolve. -/
structure PopulatedVehicle where
  doc : Vehicle
  owner : Option OwnerRef
  deriving DecidableEq

/-- A JavaScript error object, as far as the code inspects it: `name`, `code`, the keys of
`keyValue` and the messages of `errors`. -/
structure JsError where
  name : String
  code : Option Nat := none
  keyValue : List String := []
  errors : List String := []
  deriving DecidableEq

/-- An entry of `validationResult(req).array()`. -/
structure FieldError where
  location : String
  param : String
  msg : String
  deriving DecidableEq

/-- The request body, typed: a field that is absent is `none`. -/
structure Body where
  make : Option String := none
  model : Option String := none
  year : Option Int := none
  licensePlate : Option String := none
  capacity : Option Int := none
  status : Option String := none
  deriving DecidableEq

/-- An Express request, as far as the stages read or write it. -/
structure Request where
  authorization : Option String := none
  params : List (String × String) := []
  query : List (String × String) := []
  body : Body := {}
  user : Option User := none
  validationErrors : List FieldError := []
  deriving DecidableEq

/-- A JavaScript number, as far as the listings compute with one: `NaN`, an infinity, or a
finite double of integral value (the two zeros are not told apart). -/
inductive JsNumber where
  | nan
  | infinity (negative : Bool)
  | int (n : Int)
  deriving DecidableEq

/-- The `pagination` object of a listing. -/
structure Pagination where
  page : JsNumber
  limit : JsNumber
  total : JsNumber
  pages : JsNumber
  deriving DecidableEq

/-- The part of a response body beside `success` and `message`. -/
inductive Payload where
  | none
  | validation (errors : List FieldError)
  | messages (errors : List String)
  | deletedUser (id : ObjectId) (email : String) (role : String)
  | users (users : List User) (pagination : Pagination)
  | user (user : User)
  | vehicle (vehicle : PopulatedVehicle)
  | vehicles (vehicles : List PopulatedVehicle) (pagination : Pagination)
  deriving DecidableEq

/-- A response: `res.status(status).json(...)`. -/
structure Response where
  status : Nat
  success : Bool
  message : String
  payload : Payload := Payload.none
  deriving DecidableEq

/-- What a middleware does: call `next()` with the (possibly updated) request, or send a
response and stop. -/
inductive Step where
  | next (req : Request)
  | send (res : Response)
  deriving DecidableEq

deriving instance DecidableEq for Except

/-- The value of a route or query parameter, `obj[name]`. -/
def lookup (kvs : List (String × String)) (name : String) : Option String :=
  (kvs.find? (fun kv => kv.1 == name)).map (fun kv => kv.2)

/-! ## middleware/rbac.js -/

/-- The gate `requireRole(...allowedRoles)`. -/
def requireRole (allowedRoles : List String) (req : Request) : Step :=
  match req.user with
  | none => .send { status := 401, success := false, message := "Authentication required" }
  | some user =>
    if !allowedRoles.contains user.role then
      .send { status := 403, success := false,
              message := "Access denied. Required role(s): " ++ ", ".intercalate allowedRoles ++
                ". Your role: " ++ user.role }
    else
      .next req

def requireAdmin : Request → Step := requireRole ["admin"]
def requireOwner : Request → Step := requireRole ["owner"]
def requireDriver : Request → Step := requireRole ["driver"]
def requireCustomer : Request → Step := requireRole ["customer"]
def requireAdminOrOwner : Request → Step := requireRole ["admin", "owner"]
def requireOwnerOrDriver : Request → Step := requireRole ["owner", "driver"]

/-- The gate `requireSelfOrAdmin(paramName)`. -/
def requireSelfOrAdmin (paramName : String) (req : Request) : Step :=
  match req.user with
  | none => .send { status := 401, success := false, message := "Authentication required" }
  | some user =>
    let targetUserId := lookup req.params paramName
    let currentUserId := user._id.toString
    if user.role == "admin" || some currentUserId == targetUserId then
      .next req
    else
      .send { status := 403, success := false,
              message := "Access denied. You can only access your own resources or need admin privileges" }

/-! ## middleware/auth.js -/

/-- The payload of a verified token, as far as the code reads it: `decoded.userId`. -/
structure Decoded where
  userId : Option String
  deriving DecidableEq

/-- The token of an `Authorization` header: what follows `"Bearer "`, or the whole value. -/
def bearerToken (authHeader : String) : String :=
  if startsWith authHeader "Bearer " then sliceFrom authHeader 7 else authHeader

/-- The 401 responses of `verifyToken`. -/
def unauthenticated (message : String) : Step :=
  .send { status := 401, success := false, message := message }

/-- The `catch` block of `verifyToken`. -/
def verifyTokenCatch (error : JsError) : Step :=
  if error.name == "TokenExpiredError" then
    unauthenticated "Access denied. Token has expired. Please log in again"
  else if error.name == "JsonWebTokenError" then
    unauthenticated "Access denied. Invalid token"
  else if error.name == "NotBeforeError" then
    unauthenticated "Access denied. Token not yet valid"
  else
    unauthenticated "Access denied. Token verification failed"

/-- The middleware `verifyToken`.  `jwtVerify` is `jwt.verify(·, process.env.JWT_SECRET)` and
`findById` is `User.findById` on the current store; either may throw. -/
def verifyToken (jwtVerify : String → Except JsError Decoded)
    (findById : Option String → Except JsError (Option User)) (req : Request) : Step :=
  match req.authorization with
  | none => unauthenticated "Access denied. No token provided"
  | some authHeader =>
    if authHeader = "" then
      unauthenticated "Access denied. No token provided"
    else
      let token := bearerToken authHeader
      if token = "" then
        unauthenticated "Access denied. Invalid token format"
      else
        match jwtVerify token with
        | .error e => verifyTokenCatch e
        | .ok decoded =>
          match findById decoded.userId with
          | .error e => verifyTokenCatch e
          | .ok none => unauthenticated "Access denied. User not found"
          | .ok (some user) => .next { req with user := some user }

/-! ## Numbers of the query string -/

/-- The value of a character as a digit, up to radix 16. -/
def digitValue (c : Char) : Option Nat :=
  let n := c.toNat
  if 48 ≤ n ∧ n ≤ 57 then some (n - 48)
  else if 97 ≤ n ∧ n ≤ 102 then some (n - 87)
  else if 65 ≤ n ∧ n ≤ 70 then some (n - 55)
  else none

/-- The values of the longest run of radix digits at the head of the characters. -/
def leadingDigits (radix : Nat) : List Char → List Nat
  | [] => []
  | c :: cs =>
    match digitValue c with
    | none => []
    | some d => if d < radix then d :: leadingDigits radix cs else []

/-- The number a list of digit values denotes. -/
def digitsValue (radix : Nat) (ds : List Nat) : Nat :=
  ds.foldl (fun acc d => acc * radix + d) 0

/-- The number of binary digits of `a`, counted up to `fuel`. -/
def bitLength : Nat → Nat → Nat
  | 0, _ => 0
  | fuel + 1, a => if a = 0 then 0 else bitLength fuel (a / 2) + 1

/-- The double nearest to an integer: the integer itself when it has at most 53 binary
digits, otherwise the integer rounded to 53 significant bits, ties to the even significand,
and an infinity when the rounded magnitude reaches `2 ^ 1024` (1025 binary digits). -/
def roundDouble (n : Int) : JsNumber :=
  let a := n.natAbs
  let bits := bitLength 1025 a
  if bits ≤ 53 then .int n
  else
    let shift := bits - 53
    let q := a / 2 ^ shift
    let r := a % 2 ^ shift
    let half := 2 ^ (shift - 1)
    let m := (if half < r ∨ (r = half ∧ q % 2 = 1) then q + 1 else q) * 2 ^ shift
    if 1024 < bitLength 1025 m then .infinity (decide (n < 0))
    else .int (if n < 0 then -(m : Int) else (m : Int))

/-- The JavaScript `parseInt(value)` with no radix argument.  An absent value is converted to
the string `"undefined"` first.  The result is `NaN` when no digit is read, and otherwise the
double nearest to the number that the digits denote. -/
def parseInt (value : Option String) : JsNumber :=
  let s := ((value.getD "undefined").data).dropWhile isSpace
  let negative := s.head? == some '-'
  let s := match s with
    | '-' :: t => t
    | '+' :: t => t
    | _ => s
  let radix := match s with
    | '0' :: 'x' :: _ => 16
    | '0' :: 'X' :: _ => 16
    | _ => 10
  let s := if radix = 16 then s.drop 2 else s
  let z := leadingDigits radix s
  if z.isEmpty then .nan
  else if negative then roundDouble (-(digitsValue radix z : Int))
  else roundDouble (digitsValue radix z : Int)

/-- The JavaScript `x || d` on a number: `NaN` and zero give `d`. -/
def orDefault (x : JsNumber) (d : JsNumber) : JsNumber :=
  match x with
  | .nan => d
  | .int n => if n = 0 then d else x
  | .infinity _ => x

/-- The JavaScript `a - b`. -/
def JsNumber.sub (a b : JsNumber) : JsNumber :=
  match a, b with
  | .int x, .int y => roundDouble (x - y)
  | .nan, _ => .nan
  | _, .nan => .nan
  | .infinity s, .infinity t => if s = t then .nan else .infinity s
  | .infinity s, .int _ => .infinity s
  | .int _, .infinity t => .infinity (!t)

/-- The JavaScript `a * b`. -/
def JsNumber.mul (a b : JsNumber) : JsNumber :=
  match a, b with
  | .int x, .int y => roundDouble (x * y)
  | .nan, _ => .nan
  | _, .nan => .nan
  | .infinity s, .infinity t => .infinity (s != t)
  | .infinity s, .int y => if y = 0 then .nan else .infinity (s != decide (y < 0))
  | .int x, .infinity t => if x = 0 then .nan else .infinity (decide (x < 0) != t)

/-- The JavaScript `Math.ceil(total / limit)`.  For finite operands the ceiling is that of the
exact quotient: with a total below `2 ^ 53`, as every count of documents is, the rounded
quotient lies strictly between the same two integers as the exact one. -/
def ceilDiv (total limit : JsNumber) : JsNumber :=
  match total, limit with
  | .int t, .int l =>
    if l = 0 then (if t = 0 then .nan else .infinity (decide (t < 0)))
    else .int (-(Int.fdiv (-t) l))
  | .int _, .infinity _ => .int 0
  | .infinity s, .int l => .infinity (s != decide (l < 0))
  | .infinity _, .infinity _ => .nan
  | .nan, _ => .nan
  | _, .nan => .nan

/-! ## routes: the validation chains -/

/-- The statuses a vehicle may have. -/
def statusValues : List String := ["available", "in-use", "maintenance", "inactive"]

/-- The length that the validator `isLength` measures: the code points of the string, the
variation selectors U+FE0E and U+FE0F not counted. -/
def measuredLength (value : String) : Nat :=
  (value.data.filter (fun c => c.toNat != 65038 && c.toNat != 65039)).length

/-- The messages of a string field checked by
`trim().notEmpty().withMessage(required).isLength(min, max).withMessage(bounds)`. -/
def lengthErrors (param : String) (value : String) (min max : Nat) (required bounds : String) :
    List FieldError :=
  (if value.data.length = 0 then [FieldError.mk "body" param required] else []) ++
  (if min ≤ measuredLength value ∧ measuredLength value ≤ max then []
   else [FieldError.mk "body" param bounds])

/-- The messages of a field checked by `isInt(min, max).withMessage(msg)`. -/
def intErrors (param : String) (value : Option Int) (min max : Int) (msg : String) :
    List FieldError :=
  match value with
  | some n => if min ≤ n ∧ n ≤ max then [] else [FieldError.mk "body" param msg]
  | none => [FieldError.mk "body" param msg]

def statusMessage : String := "Status must be one of: available, in-use, maintenance, inactive"

/-- The chain `addVehicleValidation` of `routes/vehicles.js`; `maxYear` is
`new Date().getFullYear() + 1`.  The `trim()` sanitizers rewrite the body. -/
def addVehicleValidation (maxYear : Int) (req : Request) : Step :=
  let b := req.body
  let make := b.make.map trim
  let model := b.model.map trim
  let licensePlate := b.licensePlate.map trim
  let errors :=
    lengthErrors "make" (make.getD "") 2 50 "Vehicle make is required"
      "Make must be between 2 and 50 characters" ++
    lengthErrors "model" (model.getD "") 2 50 "Vehicle model is required"
      "Model must be between 2 and 50 characters" ++
    intErrors "year" b.year 1900 maxYear
      ("Year must be between 1900 and " ++ toString maxYear) ++
    lengthErrors "licensePlate" (licensePlate.getD "") 3 10 "License plate is required"
      "License plate must be between 3 and 10 characters" ++
    intErrors "capacity" b.capacity 1 100 "Capacity must be between 1 and 100" ++
    (match b.status with
     | none => []
     | some s => if statusValues.contains s then [] else [FieldError.mk "body" "status" statusMessage])
  .next { req with
    body := { b with make := make, model := model, licensePlate := licensePlate }
    validationErrors := req.validationErrors ++ errors }

/-- The chain `updateStatusValidation` of `routes/vehicles.js`. -/
def updateStatusValidation (req : Request) : Step :=
  let errors :=
    (if isMongoId ((lookup req.params "id").getD "") then []
     else [FieldError.mk "params" "id" "Invalid vehicle ID format"]) ++
    (if statusValues.contains (req.body.status.getD "") then []
     else [FieldError.mk "body" "status" statusMessage])
  .next { req with validationErrors := req.validationErrors ++ errors }

/-- The chain `userIdValidation` of `routes/users.js`. -/
def userIdValidation (req : Request) : Step :=
  let errors :=
    if isMongoId ((lookup req.params "id").getD "") then []
    else [FieldError.mk "params" "id" "Invalid user ID format"]
  .next { req with validationErrors := req.validationErrors ++ errors }

/-! ## The persistence layer -/

/-- A query under construction: the filter on `ownerId` (`none` is the empty filter) and the
cursor options set by the chained calls.  A `limitN` of `0` is no limit. -/
structure Query where
  owner : Option ObjectId := none
  skipN : JsNumber := .int 0
  limitN : JsNumber := .int 0
  sortCreatedAtDesc : Bool := false
  deriving DecidableEq

/-- The call `Model.find(filter)`. -/
def Query.find (owner : Option ObjectId) : Query := { owner := owner }

/-- The call `query.skip(n)`. -/
def Query.skip (q : Query) (n : JsNumber) : Query := { q with skipN := n }

/-- The call `query.limit(n)`. -/
def Query.limit (q : Query) (n : JsNumber) : Query := { q with limitN := n }

/-- The call `query.sort(createdAt: -1)`. -/
def Query.sort (q : Query) : Query := { q with sortCreatedAtDesc := true }

/-- The argument of `new Vehicle(...)` in `addVehicle`. -/
structure VehicleInput where
  make : Option String
  model : Option String
  year : Option Int
  licensePlate : String
  capacity : Option Int
  status : String
  ownerId : ObjectId
  deriving DecidableEq

/-- The operations the handlers perform on the models, over a store of type `σ`.  Each may
throw; one that throws leaves the store as it was.

* `userFindById id`           : `User.findById(id)`
* `userFindByIdAndDelete id`  : `User.findByIdAndDelete(id)`
* `userFind q`                : `User.find()` with the cursor options of `q`
* `userCountDocuments`        : `User.countDocuments()`
* `vehicleFindOne plate`      : `Vehicle.findOne(licensePlate: plate)`
* `vehicleFindById id`        : `Vehicle.findById(id)`
* `vehicleSaveNew input`      : `new Vehicle(input)` followed by `save()`
* `vehicleSave loaded doc`    : `save()` of the document `loaded` after its fields were set
                                to those of `doc`
* `vehiclePopulate doc`       : `doc.populate("ownerId", "email role")`
* `vehicleFind q`             : `Vehicle.find(filter).populate("ownerId", "email role")` with
                                the filter and the cursor options of `q`
* `vehicleCountDocuments o`   : `Vehicle.countDocuments(filter)`
-/
structure Persistence (σ : Type) where
  userFindById : Option String → σ → Except JsError (Option User)
  userFindByIdAndDelete : Option String → σ → Except JsError σ
  userFind : Query → σ → Except JsError (List User)
  userCountDocuments : σ → Except JsError Nat
  vehicleFindOne : String → σ → Except JsError (Option Vehicle)
  vehicleFindById : Option String → σ → Except JsError (Option Vehicle)
  vehicleSaveNew : VehicleInput → σ → Except JsError (Vehicle × σ)
  vehicleSave : Vehicle → Vehicle → σ → Except JsError (Vehicle × σ)
  vehiclePopulate : Vehicle → σ → Except JsError PopulatedVehicle
  vehicleFind : Query → σ → Except JsError (List PopulatedVehicle)
  vehicleCountDocuments : Option ObjectId → σ → Except JsError Nat

/-! ### The in-memory store -/

/-- The two collections. -/
structure Db where
  users : List User := []
  vehicles : List Vehicle := []
  deriving DecidableEq

/-- Lower-casing of a hexadecimal string. -/
def lowerHex (s : String) : String := String.mk (s.data.map lowerHexChar)

/-- The cast of a string to an ObjectId: 24 hexadecimal digits, in either case. -/
def castObjectId (s : String) : Option ObjectId :=
  if isHex24 s then
    if h : isCanonicalId (lowerHex s) = true then some ⟨lowerHex s, h⟩ else none
  else none

/-- The error of a failed cast. -/
def castError : JsError := { name := "CastError" }

/-- The lookup `Model.findById(id)`: an absent id matches nothing, a string that is not an
ObjectId throws. -/
def findById {α : Type} (idOf : α → ObjectId) (docs : List α) (id : Option String) :
    Except JsError (Option α) :=
  match id with
  | none => .ok none
  | some s =>
    match castObjectId s with
    | none => .error castError
    | some oid => .ok (docs.find? (fun d => idOf d == oid))

/-- The documents in descending order of `createdAt`; documents of equal time keep their
order. -/
def sortByCreatedAtDesc {α : Type} (createdAt : α → Nat) (docs : List α) : List α :=
  docs.insertionSort (fun a b => createdAt b ≤ createdAt a)

/-- The execution of a query on the documents that pass its filter: sort, then skip, then
limit, whatever the order of the chained calls.  The server takes a skip and a limit that are
integers of 64 bits and rejects any other number; it rejects a negative skip; a limit of `0`
is no limit and a negative limit counts as its absolute value. -/
def runCursor {α : Type} (createdAt : α → Nat) (q : Query) (docs : List α) :
    Except JsError (List α) :=
  let sorted := if q.sortCreatedAtDesc then sortByCreatedAtDesc createdAt docs else docs
  match q.skipN, q.limitN with
  | .int skip, .int limit =>
    if skip < 0 ∨ 2 ^ 63 ≤ skip ∨ 2 ^ 63 ≤ limit.natAbs then
      .error { name := "MongoServerError", code := some 2 }
    else
      let rest := sorted.drop skip.toNat
      .ok (if limit = 0 then rest else rest.take limit.natAbs)
  | _, _ => .error { name := "MongoServerError", code := some 2 }

/-- The documents a filter on `ownerId` lets through. -/
def ownedBy (owner : Option ObjectId) (vehicles : List Vehicle) : List Vehicle :=
  match owner with
  | none => vehicles
  | some o => vehicles.filter (fun v => v.ownerId == o)

/-- The population of the owner reference with the owner email and role. -/
def populate (users : List User) (v : Vehicle) : PopulatedVehicle :=
  { doc := v
    owner := (users.find? (fun u => u._id == v.ownerId)).map
      (fun u => { _id := u._id, email := u.email, role := u.role }) }

/-- The setters of the `licensePlate` path (`uppercase: true`, `trim: true`); `toUpperCase`
is the upper-casing of the runtime, `String.prototype.toUpperCase`. -/
def plateSetters (toUpperCase : String → String) (s : String) : String :=
  trim (toUpperCase s)

/-- The messages of the validators of `models/Vehicle.js` on the given field values;
`maxYear` is `new Date().getFullYear() + 1`. -/
def schemaErrors (maxYear : Int) (make model : Option String) (year : Option Int)
    (licensePlate : Option String) (capacity : Option Int) (status : Option String) :
    List String :=
  (if make.getD "" = "" then ["Vehicle make is required"] else []) ++
  (if model.getD "" = "" then ["Vehicle model is required"] else []) ++
  (match year with
   | none => ["Vehicle year is required"]
   | some y =>
     if y < 1900 then ["Year must be after 1900"]
     else if maxYear < y then ["Year cannot be in the future"] else []) ++
  (if licensePlate.getD "" = "" then ["License plate is required"] else []) ++
  (match capacity with
   | none => ["Vehicle capacity is required"]
   | some c => if c < 1 then ["Capacity must be at least 1"] else []) ++
  (match status with
   | none => []
   | some s => if statusValues.contains s then [] else [statusMessage])

/-- The validation of a stored or loaded document. -/
def Vehicle.schemaErrors (maxYear : Int) (v : Vehicle) : List String :=
  TravelApi.schemaErrors maxYear (some v.make) (some v.model) (some v.year)
    (some v.licensePlate) (some v.capacity) v.status

/-- The error of a failed validation. -/
def validationError (errors : List String) : JsError :=
  { name := "ValidationError", errors := errors }

/-- The error of a write that a unique index rejects. -/
def duplicateKeyError (field : String) : JsError :=
  { name := "MongoServerError", code := some 11000, keyValue := [field] }

/-- The call `new Vehicle(input)` followed by `save()`: the setters run, the validators run,
and the document is inserted with both timestamps at `now`, unless the unique index on
`licensePlate` (or on `_id`) rejects it. -/
def saveNew (toUpperCase : String → String) (maxYear : Int) (now : Nat) (newId : ObjectId)
    (input : VehicleInput) (db : Db) :
    Except JsError (Vehicle × Db) :=
  let make := input.make.map trim
  let model := input.model.map trim
  let licensePlate := plateSetters toUpperCase input.licensePlate
  let errors := schemaErrors maxYear make model input.year (some licensePlate) input.capacity
    (some input.status)
  match errors, make, model, input.year, input.capacity with
  | [], some make, some model, some year, some capacity =>
    if db.vehicles.any (fun v => v._id == newId) then .error (duplicateKeyError "_id")
    else if db.vehicles.any (fun v => v.licensePlate == licensePlate) then
      .error (duplicateKeyError "licensePlate")
    else
      let vehicle : Vehicle :=
        { _id := newId, make := make, model := model, year := year
          licensePlate := licensePlate, capacity := capacity, status := some input.status
          ownerId := input.ownerId, createdAt := now, updatedAt := now }
      .ok (vehicle, { db with vehicles := db.vehicles ++ [vehicle] })
  | _, _, _, _, _ => .error (validationError errors)

/-- The call `save()` on a loaded document whose `status` was assigned: the validators run on
the document; when nothing was modified nothing is written; otherwise the stored document
gets the new status and `updatedAt` moves to `now`. -/
def saveLoaded (maxYear : Int) (now : Nat) (loaded doc : Vehicle) (db : Db) :
    Except JsError (Vehicle × Db) :=
  if doc.schemaErrors maxYear ≠ [] then .error (validationError (doc.schemaErrors maxYear))
  else if doc = loaded then .ok (doc, db)
  else if db.vehicles.any (fun v => v._id == doc._id) then
    .ok ({ doc with updatedAt := now },
         { db with vehicles := db.vehicles.map (fun v =>
             if v._id == doc._id then { v with status := doc.status, updatedAt := now } else v) })
  else .error { name := "DocumentNotFoundError" }

/-- The in-memory persistence layer.  `toUpperCase` is the upper-casing of the runtime,
`maxYear` is `new Date().getFullYear() + 1`, `now` the time of the request and `newId` the
identifier the driver generates for a new document. -/
def mongo (toUpperCase : String → String) (maxYear : Int) (now : Nat) (newId : ObjectId) :
    Persistence Db where
  userFindById id db := findById (fun u => u._id) db.users id
  userFindByIdAndDelete id db :=
    match id with
    | none => .ok db
    | some s =>
      match castObjectId s with
      | none => .error castError
      | some oid => .ok { db with users := db.users.eraseP (fun u => u._id == oid) }
  userFind q db := runCursor (fun u => u.createdAt) q db.users
  userCountDocuments db := .ok db.users.length
  vehicleFindOne plate db :=
    .ok (db.vehicles.find? (fun v => v.licensePlate == plateSetters toUpperCase plate))
  vehicleFindById id db := findById (fun v => v._id) db.vehicles id
  vehicleSaveNew input db := saveNew toUpperCase maxYear now newId input db
  vehicleSave loaded doc db := saveLoaded maxYear now loaded doc db
  vehiclePopulate v db := .ok (populate db.users v)
  vehicleFind q db :=
    (runCursor (fun v => v.createdAt) q (ownedBy q.owner db.vehicles)).map
      (fun vs => vs.map (populate db.users))
  vehicleCountDocuments owner db := .ok (ownedBy owner db.vehicles).length

/-! ## controllers -/

/-- The response of a `catch` block of a handler. -/
def internalError (message : String) : Response :=
  { status := 500, success := false, message := message }

/-- The response to a request whose validation chain recorded violations. -/
def validationFailed (errors : List FieldError) : Response :=
  { status := 400, success := false, message := "Validation failed"
    payload := .validation errors }

section Handlers

variable {σ : Type} (P : Persistence σ)

/-- The handler `deleteUser` of `controllers/userController.js`. -/
def deleteUser (req : Request) (db : σ) : Response × σ :=
  let failed := internalError "Internal server error while deleting user"
  if !req.validationErrors.isEmpty then (validationFailed req.validationErrors, db)
  else
    let id := lookup req.params "id"
    match P.userFindById id db with
    | .error _ => (failed, db)
    | .ok none => ({ status := 404, success := false, message := "User not found" }, db)
    | .ok (some user) =>
      match req.user with
      | none => (failed, db)
      | some actor =>
        if user._id.toString == actor._id.toString then
          ({ status := 400, success := false, message := "You cannot delete your own account" },
           db)
        else
          match P.userFindByIdAndDelete id db with
          | .error _ => (failed, db)
          | .ok db' =>
            ({ status := 200, success := true, message := "User deleted successfully"
               payload := .deletedUser user._id user.email user.role }, db')

/-- The handler `getAllUsers` of `controllers/userController.js`. -/
def getAllUsers (req : Request) (db : σ) : Response × σ :=
  let failed := internalError "Internal server error while retrieving users"
  let page := orDefault (parseInt (lookup req.query "page")) (.int 1)
  let limit := orDefault (parseInt (lookup req.query "limit")) (.int 10)
  let skip := (page.sub (.int 1)).mul limit
  match P.userFind ((((Query.find none).skip skip).limit limit).sort) db with
  | .error _ => (failed, db)
  | .ok found =>
    let users := found.map User.selectMinusPassword
    match P.userCountDocuments db with
    | .error _ => (failed, db)
    | .ok total =>
      ({ status := 200, success := true, message := "Users retrieved successfully"
         payload := .users users
           { page := page, limit := limit, total := roundDouble total
             pages := ceilDiv (roundDouble total) limit } }, db)

/-- The handler `getUserById` of `controllers/userController.js`. -/
def getUserById (req : Request) (db : σ) : Response × σ :=
  let id := lookup req.params "id"
  match P.userFindById id db with
  | .error _ => (internalError "Internal server error while retrieving user", db)
  | .ok none => ({ status := 404, success := false, message := "User not found" }, db)
  | .ok (some found) =>
    ({ status := 200, success := true, message := "User retrieved successfully"
       payload := .user found.selectMinusPassword }, db)

/-- The handler `addVehicle` of `controllers/vehicleController.js`; `toUpperCase` is the
upper-casing of the runtime, `licensePlate.toUpperCase()`. -/
def addVehicle (toUpperCase : String → String) (req : Request) (db : σ) : Response × σ :=
  let failed := internalError "Internal server error while adding vehicle"
  if !req.validationErrors.isEmpty then (validationFailed req.validationErrors, db)
  else
    match req.body.licensePlate with
    | none => (failed, db)
    | some licensePlate =>
      match P.vehicleFindOne (toUpperCase licensePlate) db with
      | .error _ => (failed, db)
      | .ok (some _) =>
        ({ status := 409, success := false
           message := "Vehicle with this license plate already exists" }, db)
      | .ok none =>
        match req.user with
        | none => (failed, db)
        | some user =>
          let input : VehicleInput :=
            { make := req.body.make, model := req.body.model, year := req.body.year
              licensePlate := toUpperCase licensePlate, capacity := req.body.capacity
              status := if req.body.status.getD "" = "" then "available"
                        else req.body.status.getD ""
              ownerId := user._id }
          match P.vehicleSaveNew input db with
          | .error _ => (failed, db)
          | .ok (vehicle, db') =>
            match P.vehiclePopulate vehicle db' with
            | .error _ => (failed, db')
            | .ok populated =>
              ({ status := 201, success := true, message := "Vehicle added successfully"
                 payload := .vehicle populated }, db')

/-- The body shared by the two vehicle listings: `filter` is the filter on `ownerId`. -/
def listVehicles (message : String) (filter : Option ObjectId) (req : Request) (db : σ) :
    Response × σ :=
  let failed := internalError "Internal server error while retrieving vehicles"
  let page := orDefault (parseInt (lookup req.query "page")) (.int 1)
  let limit := orDefault (parseInt (lookup req.query "limit")) (.int 10)
  let skip := (page.sub (.int 1)).mul limit
  match P.vehicleFind ((((Query.find filter).skip skip).limit limit).sort) db with
  | .error _ => (failed, db)
  | .ok vehicles =>
    match P.vehicleCountDocuments filter db with
    | .error _ => (failed, db)
    | .ok total =>
      ({ status := 200, success := true, message := message
         payload := .vehicles vehicles
           { page := page, limit := limit, total := roundDouble total
             pages := ceilDiv (roundDouble total) limit } }, db)

/-- The handler `getMyVehicles` of `controllers/vehicleController.js`. -/
def getMyVehicles (req : Request) (db : σ) : Response × σ :=
  match req.user with
  | none => (internalError "Internal server error while retrieving vehicles", db)
  | some user => listVehicles P "Vehicles retrieved successfully" (some user._id) req db

/-- The handler `getAllVehicles` of `controllers/vehicleController.js`. -/
def getAllVehicles (req : Request) (db : σ) : Response × σ :=
  listVehicles P "All vehicles retrieved successfully" none req db

/-- The handler `updateVehicleStatus` of `controllers/vehicleController.js`. -/
def updateVehicleStatus (req : Request) (db : σ) : Response × σ :=
  let failed := internalError "Internal server error while updating vehicle status"
  let id := lookup req.params "id"
  let status := req.body.status
  match P.vehicleFindById id db with
  | .error _ => (failed, db)
  | .ok none => ({ status := 404, success := false, message := "Vehicle not found" }, db)
  | .ok (some vehicle) =>
    match req.user with
    | none => (failed, db)
    | some user =>
      if user.role != "admin" && vehicle.ownerId.toString != user._id.toString then
        ({ status := 403, success := false
           message := "Access denied. You can only update your own vehicles" }, db)
      else
        match P.vehicleSave vehicle { vehicle with status := status } db with
        | .error _ => (failed, db)
        | .ok (saved, db') =>
          match P.vehiclePopulate saved db' with
          | .error _ => (failed, db')
          | .ok populated =>
            ({ status := 200, success := true, message := "Vehicle status updated successfully"
               payload := .vehicle populated }, db')

/-! ## routes and server.js -/

/-- The stages of a route before its handler, run in order until one sends a response. -/
def runStages (stages : List (Request → Step)) (req : Request) : Step :=
  match stages with
  | [] => .next req
  | stage :: rest =>
    match stage req with
    | .send res => .send res
    | .next req' => runStages rest req'

/-- A route: its stages, then its handler. -/
def route (stages : List (Request → Step)) (handler : Request → σ → Response × σ)
    (req : Request) (db : σ) : Response × σ :=
  match runStages stages req with
  | .send res => (res, db)
  | .next req' => handler req' db

variable (jwtVerify : String → Except JsError Decoded)

/-- The stage `verifyToken` on the store `db`. -/
def authenticate (db : σ) : Request → Step :=
  verifyToken jwtVerify (fun id => P.userFindById id db)

/-- The route `DELETE /api/users/delete/:id`. -/
def routeDeleteUser (req : Request) (db : σ) : Response × σ :=
  route [authenticate P jwtVerify db, requireAdmin, userIdValidation] (deleteUser P) req db

/-- The route `GET /api/users`. -/
def routeGetAllUsers (req : Request) (db : σ) : Response × σ :=
  route [authenticate P jwtVerify db, requireAdmin] (getAllUsers P) req db

/-- The route `GET /api/users/:id`. -/
def routeGetUserById (req : Request) (db : σ) : Response × σ :=
  route [authenticate P jwtVerify db, requireSelfOrAdmin "id", userIdValidation]
    (getUserById P) req db

/-- The route `POST /api/vehicles/add`. -/
def routeAddVehicle (toUpperCase : String → String) (maxYear : Int) (req : Request) (db : σ) :
    Response × σ :=
  route [authenticate P jwtVerify db, requireOwner, addVehicleValidation maxYear]
    (addVehicle P toUpperCase) req db

/-- The route `GET /api/vehicles/my`. -/
def routeGetMyVehicles (req : Request) (db : σ) : Response × σ :=
  route [authenticate P jwtVerify db, requireOwner] (getMyVehicles P) req db

/-- The route `GET /api/vehicles`. -/
def routeGetAllVehicles (req : Request) (db : σ) : Response × σ :=
  route [authenticate P jwtVerify db, requireAdmin] (getAllVehicles P) req db

/-- The route `PATCH /api/vehicles/:id/status`. -/
def routeUpdateVehicleStatus (req : Request) (db : σ) : Response × σ :=
  route [authenticate P jwtVerify db, requireAdminOrOwner, updateStatusValidation]
    (updateVehicleStatus P) req db

/-- The handler of `GET /api/profile` in `server.js`: the body carries `req.user` as it is. -/
def profile (req : Request) (db : σ) : Response × σ :=
  ({ status := 200, success := true, message := "Profile retrieved successfully"
     payload := match req.user with
       | some user => .user user
       | none => .none }, db)

/-- The route `GET /api/profile`. -/
def routeProfile (req : Request) (db : σ) : Response × σ :=
  route [authenticate P jwtVerify db] profile req db

end Handlers

/-- The global error handler of `server.js`, which Express calls with an error that a stage
passed to `next` or threw. -/
def globalErrorHandler (error : JsError) : Response :=
  if error.name == "ValidationError" then
    { status := 400, success := false, message := "Validation Error"
      payload := .messages error.errors }
  else if error.name == "CastError" then
    { status := 400, success := false, message := "Invalid ID format" }
  else if error.code == some 11000 then
    { status := 409, success := false
      message := error.keyValue.head?.getD "undefined" ++ " already exists" }
  else
    { status := 500, success := false, message := "Internal Server Error" }

/-- The user documents that a handler puts into a response body. -/
def Payload.userDocuments : Payload → List User
  | .users us _ => us
  | .user u => [u]
  | _ => []

/-- The user objects of a response body as `res.json` writes them: each user document in its
serialized form. -/
def Payload.userObjects (p : Payload) : List User := p.userDocuments.map User.toJSON

/-! ## Sample data -/

def idAdmin : ObjectId := ⟨"0123456789abcdef00000001", by decide⟩
def idA : ObjectId := ⟨"aaaaaaaaaaaaaaaaaaaaaaaa", by decide⟩
def idB : ObjectId := ⟨"bbbbbbbbbbbbbbbbbbbbbbbb", by decide⟩
def idV : ObjectId := ⟨"cccccccccccccccccccccccc", by decide⟩
def idW : ObjectId := ⟨"dddddddddddddddddddddddd", by decide⟩

def adminUser : User :=
  { _id := idAdmin, email := "root@example.com", password := some "$2b$10$hashR"
    role := "admin", createdAt := 1 }

def ownerA : User :=
  { _id := idA, email := "a@example.com", password := some "$2b$10$hashA"
    role := "owner", createdAt := 2 }

def ownerB : User :=
  { _id := idB, email := "b@example.com", password := some "$2b$10$hashB"
    role := "owner", createdAt := 3 }

/-- A vehicle of owner B. -/
def vehicleOfB : Vehicle :=
  { _id := idV, make := "Volvo", model := "B8R", year := 2020, licensePlate := "XYZ789"
    capacity := 40, status := some "available", ownerId := idB, createdAt := 5, updatedAt := 5 }

/-- A store with an admin, two owners and one vehicle. -/
def sampleDb : Db := { users := [adminUser, ownerA, ownerB], vehicles := [vehicleOfB] }

/-- A token verifier that accepts the tokens `"admin"`, `"a"` and `"b"` and reports any other
token as malformed. -/
def sampleJwt (token : String) : Except JsError Decoded :=
  if token = "admin" then .ok { userId := some idAdmin.hex }
  else if token = "a" then .ok { userId := some idA.hex }
  else if token = "b" then .ok { userId := some idB.hex }
  else .error { name := "JsonWebTokenError" }

/-- The in-memory persistence layer in the year 2026, at time 100, with `idW` as the next
generated identifier. -/
def sampleMongo : Persistence Db := mongo asciiUpperCase 2027 100 idW

/-- The admin sets the status of the sample vehicle to a value outside the enumerated set. -/
def reqBogusStatus : Request :=
  { authorization := some "Bearer admin", params := [("id", idV.hex)]
    body := { status := some "bogus" } }

/-- The admin asks for a user by an id that is not a well-formed identifier. -/
def reqMalformedUserId : Request :=
  { authorization := some "Bearer admin", params := [("id", "not-an-id")] }

/-- Owner A asks for the profile. -/
def reqProfile : Request := { authorization := some "Bearer a" }

/-- A status update of the sample vehicle by `actor`, past the gates and the validation. -/
def reqSetInUse (actor : User) : Request :=
  { params := [("id", idV.hex)], body := { status := some "in-use" }, user := some actor }

/-- An add-vehicle request of `actor` with the given plate, before validation. -/
def reqAdd (actor : User) (plate : String) : Request :=
  { body := { make := some "Ford", model := some "Transit", year := some 2021
              licensePlate := some plate, capacity := some 12 }
    user := some actor }

/-- The vehicle that a concurrent request of owner B stores with the plate `ABC123`. -/
def racedVehicle : Vehicle :=
  { _id := idW, make := "Ford", model := "Transit", year := 2021, licensePlate := "ABC123"
    capacity := 12, status := some "available", ownerId := idB, createdAt := 99, updatedAt := 99 }

/-- The persistence layer as a request sees it that loses a race: between its lookup of the
plate and its save, a concurrent request has stored `racedVehicle`. -/
def racingMongo : Persistence Db :=
  { sampleMongo with
    vehicleSaveNew := fun input db =>
      saveNew asciiUpperCase 2027 100 idA input { db with vehicles := db.vehicles ++ [racedVehicle] } }

/-- Sixteen identifiers. -/
def sampleId (n : Fin 16) : ObjectId :=
  ⟨String.mk (List.replicate 23 '0' ++ [lowerHexChars.get (n.cast (by decide))]),
   by revert n; decide⟩

/-- Twelve users, created at the times 0 to 11. -/
def twelveUsers : List User :=
  (List.finRange 12).map (fun i =>
    { _id := sampleId (i.castLE (by decide)), email := "user@example.com"
      password := some "$2b$10$hash", role := "customer", createdAt := i.val })

/-- Twelve vehicles of owner A, created at the times 0 to 11. -/
def twelveVehicles : List Vehicle :=
  (List.finRange 12).map (fun i =>
    { vehicleOfB with _id := sampleId (i.castLE (by decide)), ownerId := idA
                      licensePlate := (sampleId (i.castLE (by decide))).hex
                      createdAt := i.val, updatedAt := i.val })

/-- The second page of five. -/
def reqPageTwo (actor : User) : Request :=
  { query := [("page", "2"), ("limit", "5")], user := some actor }

/-- A listing request of the admin with the given query string. -/
def reqListing (query : List (String × String)) : Request :=
  { query := query, user := some adminUser }

/-- The `pagination` object and the number of items of a user listing. -/
def listedUsers (r : Response × Db) : Option (Pagination × Nat) :=
  match r.1.payload with
  | .users us p => some (p, us.length)
  | _ => none

/-- The numeral of `10 ^ 400`: the digit 1 followed by 400 zeros. -/
def hugeNumeral : String := String.mk ('1' :: List.replicate 400 '0')

/-! ## Theorems -/

/-! ### The role gate -/

/-- C1: for every allowed-role list and every request, `requireRole` answers 401 without
continuing when the request has no identity, answers 403 without continuing when the role of
the identity is not in the list, and continues with the request unchanged when it is; it
continues exactly when an identity is present and its role is in the list. -/
theorem requireRole_contract (allowedRoles : List String) (req : Request) :
    (req.user = none → ∃ m, requireRole allowedRoles req =
        .send { status := 401, success := false, message := m }) ∧
    (∀ u, req.user = some u → u.role ∉ allowedRoles → ∃ m, requireRole allowedRoles req =
        .send { status := 403, success := false, message := m }) ∧
    (∀ u, req.user = some u → u.role ∈ allowedRoles →
        requireRole allowedRoles req = .next req) ∧
    ((∃ r, requireRole allowedRoles req = .next r) ↔
        ∃ u, req.user = some u ∧ u.role ∈ allowedRoles) := by
  refine ⟨?_, ?_, ?_, ?_⟩
  · intro h
    exact ⟨"Authentication required", by simp only [requireRole, h]⟩
  · intro u h hu
    exact ⟨"Access denied. Required role(s): " ++ ", ".intercalate allowedRoles ++
      ". Your role: " ++ u.role, by simp [requireRole, h, hu]⟩
  · intro u h hu
    simp [requireRole, h, hu]
  · cases h : req.user with
    | none => simp [requireRole, h]
    | some u =>
      by_cases hu : u.role ∈ allowedRoles <;> simp [requireRole, h, hu]

/-- C1, at an owner: the admin-or-owner gate lets the request through untouched and the admin
gate answers 403. -/
theorem requireRole_contract_witness :
    requireAdminOrOwner { user := some ownerA } = .next { user := some ownerA } ∧
    ∃ m, requireAdmin { user := some ownerA } =
      .send { status := 403, success := false, message := m } :=
  ⟨(requireRole_contract ["admin", "owner"] { user := some ownerA }).2.2.1 ownerA rfl
      (by decide),
   (requireRole_contract ["admin"] { user := some ownerA }).2.1 ownerA rfl (by decide)⟩

/-! ### The ownership gate -/

/-- C2: for every request with an authenticated identity and every parameter name,
`requireSelfOrAdmin` continues (with the request unchanged) when the role is admin or the
string form of the identity id equals the named route parameter, and otherwise answers 403
without continuing; so it continues exactly in the first case. -/
theorem requireSelfOrAdmin_contract (paramName : String) (req : Request) (u : User)
    (h : req.user = some u) :
    ((u.role = "admin" ∨ lookup req.params paramName = some u._id.toString) →
        requireSelfOrAdmin paramName req = .next req) ∧
    (¬(u.role = "admin" ∨ lookup req.params paramName = some u._id.toString) →
        ∃ m, requireSelfOrAdmin paramName req =
          .send { status := 403, success := false, message := m }) ∧
    ((∃ r, requireSelfOrAdmin paramName req = .next r) ↔
        (u.role = "admin" ∨ lookup req.params paramName = some u._id.toString)) := by
  have key : (u.role == "admin" || some u._id.toString == lookup req.params paramName) = true ↔
      (u.role = "admin" ∨ lookup req.params paramName = some u._id.toString) := by
    rw [Bool.or_eq_true, beq_iff_eq, beq_iff_eq]
    exact or_congr Iff.rfl eq_comm
  by_cases hc : u.role = "admin" ∨ lookup req.params paramName = some u._id.toString
  · have hb := key.mpr hc
    refine ⟨fun _ => ?_, fun hn => absurd hc hn, ?_⟩
    · simp only [requireSelfOrAdmin, h, hb, if_true]
    · simp only [requireSelfOrAdmin, h, hb, if_true, hc, iff_true]
      exact ⟨_, rfl⟩
  · have hb : (u.role == "admin" || some u._id.toString == lookup req.params paramName)
        = false := by
      rw [Bool.eq_false_iff]; exact fun hb => hc (key.mp hb)
    refine ⟨fun hy => absurd hy hc, fun _ =>
      ⟨"Access denied. You can only access your own resources or need admin privileges", ?_⟩,
      ?_⟩
    · simp only [requireSelfOrAdmin, h, hb]; rfl
    · simp only [requireSelfOrAdmin, h, hb, hc, iff_false]
      rintro ⟨r, hr⟩
      simp at hr

/-- C2, on the route parameter `id`: owner A passes on A's own id and is refused on B's id,
and the admin passes on B's id. -/
theorem requireSelfOrAdmin_contract_witness :
    requireSelfOrAdmin "id" { params := [("id", idA.hex)], user := some ownerA } =
      .next { params := [("id", idA.hex)], user := some ownerA } ∧
    (∃ m, requireSelfOrAdmin "id" { params := [("id", idB.hex)], user := some ownerA } =
      .send { status := 403, success := false, message := m }) ∧
    requireSelfOrAdmin "id" { params := [("id", idB.hex)], user := some adminUser } =
      .next { params := [("id", idB.hex)], user := some adminUser } :=
  ⟨(requireSelfOrAdmin_contract "id" { params := [("id", idA.hex)], user := some ownerA }
      ownerA rfl).1 (by decide),
   (requireSelfOrAdmin_contract "id" { params := [("id", idB.hex)], user := some ownerA }
      ownerA rfl).2.1 (by decide),
   (requireSelfOrAdmin_contract "id" { params := [("id", idB.hex)], user := some adminUser }
      adminUser rfl).1 (by decide)⟩

/-! ### The credential verifier -/

theorem verifyTokenCatch_unauthenticated (e : JsError) :
    ∃ m, verifyTokenCatch e = unauthenticated m := by
  unfold verifyTokenCatch
  split_ifs <;> exact ⟨_, rfl⟩

/-- C3: whatever token verification and the user lookup do (throwing included),
`verifyToken` either continues with the looked-up user attached to the request or answers
401 with `success` false.  It continues exactly when the header is present and non-empty, its
token (what follows a leading `"Bearer "`, else the whole header) is non-empty, verification
succeeds and the lookup finds a record; a request without the header gets 401. -/
theorem verifyToken_contract (jwtVerify : String → Except JsError Decoded)
    (findById : Option String → Except JsError (Option User)) (req : Request) :
    ((∃ u, verifyToken jwtVerify findById req = .next { req with user := some u }) ∨
     (∃ m, verifyToken jwtVerify findById req =
        .send { status := 401, success := false, message := m })) ∧
    (∀ r, verifyToken jwtVerify findById req = .next r ↔
      ∃ h d u, req.authorization = some h ∧ h ≠ "" ∧ bearerToken h ≠ "" ∧
        jwtVerify (bearerToken h) = .ok d ∧ findById d.userId = .ok (some u) ∧
        r = { req with user := some u }) ∧
    (req.authorization = none → ∃ m, verifyToken jwtVerify findById req =
        .send { status := 401, success := false, message := m }) := by
  have hcatch : ∀ e, (∃ m, verifyTokenCatch e =
        .send { status := 401, success := false, message := m }) ∧
      ∀ r, verifyTokenCatch e ≠ .next r := by
    intro e
    obtain ⟨m, hm⟩ := verifyTokenCatch_unauthenticated e
    exact ⟨⟨m, hm⟩, fun r hr => by rw [hm] at hr; exact absurd hr (by simp [unauthenticated])⟩
  cases ha : req.authorization with
  | none =>
    refine ⟨Or.inr ⟨_, by simp only [verifyToken, ha]; rfl⟩, fun r => ?_,
      fun _ => ⟨_, by simp only [verifyToken, ha]; rfl⟩⟩
    simp [verifyToken, ha, unauthenticated]
  | some h =>
    refine ⟨?_, ?_, fun hn => by simp at hn⟩
    · by_cases h0 : h = ""
      · exact Or.inr ⟨_, by simp only [verifyToken, ha, h0, if_true]; rfl⟩
      by_cases ht : bearerToken h = ""
      · exact Or.inr ⟨_, by simp only [verifyToken, ha, h0, ht, if_true, if_false]; rfl⟩
      cases hj : jwtVerify (bearerToken h) with
      | error e =>
        obtain ⟨m, hm⟩ := (hcatch e).1
        exact Or.inr ⟨m, by simp only [verifyToken, ha, h0, ht, if_false, hj, hm]⟩
      | ok d =>
        cases hf : findById d.userId with
        | error e =>
          obtain ⟨m, hm⟩ := (hcatch e).1
          exact Or.inr ⟨m, by simp only [verifyToken, ha, h0, ht, if_false, hj, hf, hm]⟩
        | ok o =>
          cases o with
          | none =>
            exact Or.inr ⟨_, by simp only [verifyToken, ha, h0, ht, if_false, hj, hf]; rfl⟩
          | some u =>
            exact Or.inl ⟨u, by simp only [verifyToken, ha, h0, ht, if_false, hj, hf]⟩
    · intro r
      by_cases h0 : h = ""
      · simp [verifyToken, ha, h0, unauthenticated]
      by_cases ht : bearerToken h = ""
      · simp [verifyToken, ha, h0, ht, unauthenticated]
      cases hj : jwtVerify (bearerToken h) with
      | error e =>
        have := (hcatch e).2 r
        simp [verifyToken, ha, h0, ht, hj, this]
      | ok d =>
        cases hf : findById d.userId with
        | error e =>
          have := (hcatch e).2 r
          simp [verifyToken, ha, h0, ht, hj, hf, this]
        | ok o =>
          cases o with
          | none => simp [verifyToken, ha, h0, ht, hj, hf, unauthenticated]
          | some u =>
            simp only [verifyToken, ha, h0, ht, if_false, hj, hf]
            constructor
            · intro hr
              exact ⟨h, d, u, rfl, h0, ht, hj, hf, (Step.next.inj hr).symm⟩
            · rintro ⟨h', d', u', hh, -, -, hj', hf', rfl⟩
              cases hh
              rw [hj] at hj'
              cases hj'
              rw [hf] at hf'
              cases hf'
              rfl

/-- C3, on the sample verifier: a request without the header gets 401. -/
theorem verifyToken_contract_witness :
    ∃ m, verifyToken sampleJwt
        (fun id => (mongo asciiUpperCase 2027 100 idW).userFindById id sampleDb) {} =
      .send { status := 401, success := false, message := m } :=
  (verifyToken_contract sampleJwt
    (fun id => (mongo asciiUpperCase 2027 100 idW).userFindById id sampleDb) {}).2.2 rfl

/-! ### Validation -/

/-- The handlers `addVehicle` and `deleteUser` consult the recorded violations first: with at
least one violation they answer 400 with the list and touch nothing. -/
theorem checked_handlers_reject {σ : Type} (P : Persistence σ)
    (toUpperCase : String → String) (req : Request) (db : σ)
    (h : req.validationErrors ≠ []) :
    addVehicle P toUpperCase req db = (validationFailed req.validationErrors, db) ∧
    deleteUser P req db = (validationFailed req.validationErrors, db) := by
  have hne : req.validationErrors.isEmpty = false := by
    cases hv : req.validationErrors with
    | nil => exact absurd hv h
    | cons a l => rfl
  simp [addVehicle, deleteUser, hne]

/-- C4 (fails on the code): two of the four routes that declare rules do not enforce them.
The admin sends the status `bogus` for an existing vehicle: the chain records a violation,
yet `updateVehicleStatus` loads the vehicle, tries to save it and answers 500.  The admin asks
for the user `not-an-id`: `getUserById` runs the lookup and answers 500.  The same malformed id
on the delete route is answered with 400. -/
theorem unchecked_handlers_ignore_violations :
    (∃ req, updateStatusValidation { reqBogusStatus with user := some adminUser } = .next req ∧
      req.validationErrors =
        [{ location := "body", param := "status", msg := statusMessage }]) ∧
    sampleMongo.vehicleFindById (some idV.hex) sampleDb = .ok (some vehicleOfB) ∧
    routeUpdateVehicleStatus sampleMongo sampleJwt reqBogusStatus sampleDb =
      (internalError "Internal server error while updating vehicle status", sampleDb) ∧
    routeGetUserById sampleMongo sampleJwt reqMalformedUserId sampleDb =
      (internalError "Internal server error while retrieving user", sampleDb) ∧
    (routeDeleteUser sampleMongo sampleJwt reqMalformedUserId sampleDb).1.status = 400 := by
  refine ⟨⟨_, rfl, by decide⟩, by decide, by decide, by decide, by decide⟩

/-! ### Passwords -/

/-- The handlers of `controllers/userController.js` put no password into the body: the
listing and the lookup project the field away from the documents and the deletion returns id,
email and role only. -/
theorem user_handlers_hide_password {σ : Type} (P : Persistence σ) (req : Request) (db : σ) :
    (∀ u ∈ (getAllUsers P req db).1.payload.userDocuments, u.password = none) ∧
    (∀ u ∈ (getUserById P req db).1.payload.userDocuments, u.password = none) ∧
    (∀ u ∈ (deleteUser P req db).1.payload.userDocuments, u.password = none) := by
  refine ⟨?_, ?_, ?_⟩
  · unfold getAllUsers
    intro u
    dsimp only
    split
    · simp [internalError, Payload.userDocuments]
    · split
      · simp [internalError, Payload.userDocuments]
      · simp only [Payload.userDocuments, List.mem_map]
        rintro ⟨w, -, rfl⟩
        rfl
  · unfold getUserById
    intro u
    dsimp only
    split
    · simp [internalError, Payload.userDocuments]
    · simp [Payload.userDocuments]
    · simp only [Payload.userDocuments, List.mem_singleton]
      rintro rfl
      rfl
  · intro u hu
    have : (deleteUser P req db).1.payload.userDocuments = [] := by
      unfold deleteUser
      dsimp only
      split_ifs
      · rfl
      · split
        · rfl
        · rfl
        · split
          · rfl
          · split_ifs
            · rfl
            · split <;> rfl
    rw [this] at hu
    exact absurd hu (List.not_mem_nil u)

/-- C5: whatever the store holds, no user object in a response body of `GET /api/users`,
`GET /api/users/:id`, `DELETE /api/users/delete/:id` or `GET /api/profile` carries a password.
The three handlers of `userController.js` already keep the password out of the documents
they return (projection, or the fields id, email and role); the profile handler returns the
document that `verifyToken` loaded, whose serialization by the user model leaves the password
out. -/
theorem responses_hide_password {σ : Type} (P : Persistence σ)
    (jwtVerify : String → Except JsError Decoded) (req : Request) (db : σ) :
    ((∀ u ∈ (getAllUsers P req db).1.payload.userDocuments, u.password = none) ∧
     (∀ u ∈ (getUserById P req db).1.payload.userDocuments, u.password = none) ∧
     (∀ u ∈ (deleteUser P req db).1.payload.userDocuments, u.password = none)) ∧
    (∀ u ∈ (routeGetAllUsers P jwtVerify req db).1.payload.userObjects, u.password = none) ∧
    (∀ u ∈ (routeGetUserById P jwtVerify req db).1.payload.userObjects, u.password = none) ∧
    (∀ u ∈ (routeDeleteUser P jwtVerify req db).1.payload.userObjects, u.password = none) ∧
    (∀ u ∈ (routeProfile P jwtVerify req db).1.payload.userObjects, u.password = none) := by
  have hser : ∀ (p : Payload), ∀ u ∈ p.userObjects, u.password = none := by
    intro p u hu
    simp only [Payload.userObjects, List.mem_map] at hu
    obtain ⟨w, -, rfl⟩ := hu
    rfl
  exact ⟨user_handlers_hide_password P req db, hser _, hser _, hser _, hser _⟩

/-! ### Errors of the persistence layer -/

/-- Whatever the persistence layer throws from the save, `addVehicle` answers 500. -/
theorem addVehicle_save_error {σ : Type} (P : Persistence σ)
    (toUpperCase : String → String) (req : Request) (db : σ) (plate : String) (u : User) (input : VehicleInput) (e : JsError)
    (hv : req.validationErrors = []) (hp : req.body.licensePlate = some plate)
    (hf : P.vehicleFindOne (toUpperCase plate) db = .ok none) (hu : req.user = some u)
    (hi : input = { make := req.body.make, model := req.body.model, year := req.body.year
                    licensePlate := toUpperCase plate, capacity := req.body.capacity
                    status := if req.body.status.getD "" = "" then "available"
                              else req.body.status.getD ""
                    ownerId := u._id })
    (hs : P.vehicleSaveNew input db = .error e) :
    addVehicle P toUpperCase req db =
      (internalError "Internal server error while adding vehicle", db) := by
  subst hi
  simp only [addVehicle, hv, hp, hf, hu, hs, List.isEmpty_nil, Bool.not_true,
    Bool.false_eq_true, if_false]

/-- C9 (fails on the code): owner A adds the plate `abc123` while a concurrent request stores
`ABC123` between the lookup and the save.  The save is rejected with the duplicate-key error
(code 11000) on `licensePlate`; the global error handler would turn that error into 409
naming the field, but the `catch` block of `addVehicle` answers 500. -/
theorem addVehicle_duplicate_key_gives_500 :
    racingMongo.vehicleFindOne "ABC123" sampleDb = .ok none ∧
    racingMongo.vehicleSaveNew
      { make := some "Ford", model := some "Transit", year := some 2021
        licensePlate := "ABC123", capacity := some 12, status := "available"
        ownerId := idA } sampleDb = .error (duplicateKeyError "licensePlate") ∧
    routeAddVehicle racingMongo sampleJwt asciiUpperCase 2027
      { reqAdd ownerA "abc123" with authorization := some "Bearer a" } sampleDb =
      (internalError "Internal server error while adding vehicle", sampleDb) ∧
    globalErrorHandler (duplicateKeyError "licensePlate") =
      { status := 409, success := false, message := "licensePlate already exists" } := by
  exact ⟨by decide, by decide, by decide, by decide⟩

/-! ### Identifiers -/

theorem lowerHexChar_of_lower (c : Char) (h : lowerHexChars.contains c = true) :
    lowerHexChar c = c ∧ hexChars.contains c = true := by
  simp [lowerHexChars] at h
  rcases h with h | h | h | h | h | h | h | h | h | h | h | h | h | h | h | h <;>
    subst h <;> exact ⟨rfl, by decide⟩

theorem lowerHex_of_canonical (cs : List Char)
    (h : cs.all (fun c => lowerHexChars.contains c) = true) :
    cs.map lowerHexChar = cs ∧ cs.all (fun c => hexChars.contains c) = true := by
  induction cs with
  | nil => exact ⟨rfl, rfl⟩
  | cons c cs ih =>
    rw [List.all_cons, Bool.and_eq_true] at h
    obtain ⟨h1, h2⟩ := lowerHexChar_of_lower c h.1
    obtain ⟨i1, i2⟩ := ih h.2
    refine ⟨by rw [List.map_cons, h1, i1], ?_⟩
    rw [List.all_cons, h2, i2]
    rfl

/-- The string form of an identifier casts back to the identifier. -/
theorem castObjectId_hex (o : ObjectId) : castObjectId o.hex = some o := by
  have hc := o.canonical
  unfold isCanonicalId at hc
  rw [Bool.and_eq_true] at hc
  obtain ⟨h1, h2⟩ := lowerHex_of_canonical o.hex.data hc.1
  have hm : isHex24 o.hex = true := by
    unfold isHex24
    rw [h2, hc.2]
    rfl
  have hl : lowerHex o.hex = o.hex := by
    unfold lowerHex
    rw [h1]
  have hcan : isCanonicalId (lowerHex o.hex) = true := by
    rw [hl]
    exact o.canonical
  unfold castObjectId
  rw [if_pos hm, dif_pos hcan]
  congr 1
  cases o
  simp only [ObjectId.mk.injEq]
  exact hl

/-! ### Deleting a user -/

/-- C7: for every user store and every actor whose record is in the store, `deleteUser`
called with the actor id as the target answers 400 with `success` false and leaves the store
as it was. -/
theorem deleteUser_self_rejected (toUpperCase : String → String) (maxYear : Int) (now : Nat)
    (newId : ObjectId) (db : Db)
    (req : Request) (admin : User) (hu : req.user = some admin)
    (hmem : ∃ u ∈ db.users, u._id = admin._id)
    (hid : lookup req.params "id" = some admin._id.toString) :
    ∃ res, deleteUser (mongo toUpperCase maxYear now newId) req db = (res, db) ∧
      res.status = 400 ∧ res.success = false := by
  by_cases hv : req.validationErrors.isEmpty = true
  · obtain ⟨u0, hu0, hid0⟩ := hmem
    have hsome : (db.users.find? (fun u => u._id == admin._id)).isSome = true := by
      rw [List.find?_isSome]
      exact ⟨u0, hu0, by simp [hid0]⟩
    obtain ⟨found, hfound⟩ := Option.isSome_iff_exists.mp hsome
    have hfid : found._id = admin._id := by
      have := List.find?_some hfound
      simpa using this
    have hlook : (mongo toUpperCase maxYear now newId).userFindById (some admin._id.toString) db =
        .ok (some found) := by
      show findById (fun u => u._id) db.users (some admin._id.hex) = _
      simp only [findById, castObjectId_hex, hfound]
    refine ⟨{ status := 400, success := false, message := "You cannot delete your own account" },
      ?_, rfl, rfl⟩
    simp only [deleteUser, hv, Bool.not_true, Bool.false_eq_true, if_false, hid, hlook, hu,
      hfid, beq_self_eq_true, if_true]
  · refine ⟨validationFailed req.validationErrors, ?_, rfl, rfl⟩
    simp only [deleteUser, hv, Bool.not_false, if_true]

/-- C7, on the sample store: the admin deleting the admin account gets 400 and the store
stays. -/
theorem deleteUser_self_rejected_witness :
    ∃ res, deleteUser sampleMongo { params := [("id", idAdmin.hex)], user := some adminUser }
        sampleDb = (res, sampleDb) ∧ res.status = 400 ∧ res.success = false :=
  deleteUser_self_rejected asciiUpperCase 2027 100 idW sampleDb
    { params := [("id", idAdmin.hex)], user := some adminUser } adminUser rfl
    ⟨adminUser, by decide, rfl⟩ rfl

/-! ### Updating the status of a vehicle -/

theorem findById_mem {α : Type} (idOf : α → ObjectId) (docs : List α) (id : Option String)
    (d : α) (h : findById idOf docs id = .ok (some d)) : d ∈ docs := by
  unfold findById at h
  split at h
  · simp at h
  · split at h
    · simp at h
    · simp only [Except.ok.injEq] at h
      exact List.mem_of_find?_eq_some h

theorem schemaErrors_set_status (maxYear : Int) (v : Vehicle) (s : String)
    (hv : v.schemaErrors maxYear = []) (hs : s ∈ statusValues) :
    ({ v with status := some s } : Vehicle).schemaErrors maxYear = [] := by
  simp only [Vehicle.schemaErrors, schemaErrors, List.append_eq_nil] at hv ⊢
  obtain ⟨⟨⟨⟨⟨h1, h2⟩, h3⟩, h4⟩, h5⟩, _⟩ := hv
  exact ⟨⟨⟨⟨⟨h1, h2⟩, h3⟩, h4⟩, h5⟩, by simp [hs]⟩

/-- C6 (fails on the code): owner B sets the status of B's own vehicle from `available` to
`in-use` at time 100.  The call succeeds with 200, and the stored vehicle differs from the
former one in `status` and also in `updatedAt`, which moves from 5 to 100. -/
theorem updateVehicleStatus_moves_updatedAt :
    (updateVehicleStatus sampleMongo (reqSetInUse ownerB) sampleDb).1.status = 200 ∧
    (updateVehicleStatus sampleMongo (reqSetInUse ownerB) sampleDb).2.vehicles =
      [{ vehicleOfB with status := some "in-use", updatedAt := 100 }] ∧
    (updateVehicleStatus sampleMongo (reqSetInUse ownerB) sampleDb).2.vehicles ≠
      [{ vehicleOfB with status := some "in-use" }] := by
  exact ⟨by decide, by decide, by decide⟩

/-- C6 (as amended): for every stored vehicle `v` that satisfies the schema, every
authenticated actor and every status of the enumerated set, `updateVehicleStatus` answers 403
and leaves the store as it was exactly when the role of the actor is not admin and the string
forms of the actor id and of the owner id of `v` differ.  Otherwise it answers 200 with the
updated vehicle; the users are untouched; when the status is the stored one nothing is
written, and else the vehicle with the id of `v` gets the requested status and `updatedAt`
moves to the time of the save, no other field and no other vehicle being changed. -/
theorem updateVehicleStatus_contract (toUpperCase : String → String) (maxYear : Int) (now : Nat)
    (newId : ObjectId) (db : Db)
    (req : Request) (actor : User) (v : Vehicle) (status : String)
    (hu : req.user = some actor) (hs : req.body.status = some status)
    (hin : status ∈ statusValues)
    (hf : (mongo toUpperCase maxYear now newId).vehicleFindById (lookup req.params "id") db =
      .ok (some v))
    (hvalid : v.schemaErrors maxYear = []) :
    ((actor.role ≠ "admin" ∧ v.ownerId.toString ≠ actor._id.toString) →
      ∃ m, updateVehicleStatus (mongo toUpperCase maxYear now newId) req db =
        ({ status := 403, success := false, message := m }, db)) ∧
    (¬(actor.role ≠ "admin" ∧ v.ownerId.toString ≠ actor._id.toString) →
      ∃ m db', updateVehicleStatus (mongo toUpperCase maxYear now newId) req db =
        ({ status := 200, success := true, message := m
           payload := .vehicle (populate db.users
             { v with status := some status
                      updatedAt := if v.status = some status then v.updatedAt else now }) },
         db') ∧
        db'.users = db.users ∧
        db'.vehicles =
          if v.status = some status then db.vehicles
          else db.vehicles.map (fun w =>
            if w._id = v._id then { w with status := some status, updatedAt := now } else w)) ∧
    ((updateVehicleStatus (mongo toUpperCase maxYear now newId) req db).1.status = 403 ↔
      (actor.role ≠ "admin" ∧ v.ownerId.toString ≠ actor._id.toString)) := by
  have hmem : v ∈ db.vehicles := findById_mem _ _ _ _ hf
  have hany : db.vehicles.any (fun w => w._id == v._id) = true := by
    rw [List.any_eq_true]
    exact ⟨v, hmem, by simp⟩
  have hcond : (actor.role != "admin" && v.ownerId.toString != actor._id.toString) = true ↔
      (actor.role ≠ "admin" ∧ v.ownerId.toString ≠ actor._id.toString) := by
    simp
  have hdoc : ({ v with status := some status } : Vehicle) = v ↔ v.status = some status := by
    constructor
    · intro h
      rw [← h]
    · intro h
      cases v
      simp only [Vehicle.mk.injEq, true_and, and_true] at h ⊢
      exact h.symm
  have hok : ¬(actor.role ≠ "admin" ∧ v.ownerId.toString ≠ actor._id.toString) →
      ∃ m db', updateVehicleStatus (mongo toUpperCase maxYear now newId) req db =
        ({ status := 200, success := true, message := m
           payload := .vehicle (populate db.users
             { v with status := some status
                      updatedAt := if v.status = some status then v.updatedAt else now }) },
         db') ∧
        db'.users = db.users ∧
        db'.vehicles =
          if v.status = some status then db.vehicles
          else db.vehicles.map (fun w =>
            if w._id = v._id then { w with status := some status, updatedAt := now } else w) := by
    intro hc
    have hb : (actor.role != "admin" && v.ownerId.toString != actor._id.toString) = false := by
      rw [Bool.eq_false_iff]
      exact fun h => hc (hcond.mp h)
    have hsave : (mongo toUpperCase maxYear now newId).vehicleSave v { v with status := some status } db =
        saveLoaded maxYear now v { v with status := some status } db := rfl
    have hpop : ∀ w d, (mongo toUpperCase maxYear now newId).vehiclePopulate w d =
        .ok (populate d.users w) := fun _ _ => rfl
    simp only [updateVehicleStatus, hf, hu, hb, hs, hsave, Bool.false_eq_true, if_false]
    unfold saveLoaded
    rw [if_neg (by rw [schemaErrors_set_status maxYear v status hvalid hin]; simp)]
    by_cases hst : v.status = some status
    · rw [if_pos (hdoc.mpr hst)]
      simp only [hpop, if_pos hst]
      exact ⟨"Vehicle status updated successfully", db, rfl, rfl, rfl⟩
    · rw [if_neg (fun h => hst (hdoc.mp h)), if_pos hany]
      simp only [hpop, if_neg hst]
      refine ⟨"Vehicle status updated successfully", _, rfl, rfl, ?_⟩
      simp only [beq_iff_eq]
  refine ⟨?_, hok, ?_⟩
  · intro hc
    refine ⟨"Access denied. You can only update your own vehicles", ?_⟩
    simp only [updateVehicleStatus, hf, hu, hcond.mpr hc, if_true]
  · constructor
    · intro h403
      by_contra hc
      obtain ⟨m, db', he, -, -⟩ := hok hc
      rw [he] at h403
      simp at h403
    · intro hc
      simp only [updateVehicleStatus, hf, hu, hcond.mpr hc, if_true]

/-- C6 (as amended), on the sample store: owner A is refused on the vehicle of owner B, and
the admin making the same call succeeds. -/
theorem updateVehicleStatus_contract_witness :
    (∃ m, updateVehicleStatus sampleMongo (reqSetInUse ownerA) sampleDb =
      ({ status := 403, success := false, message := m }, sampleDb)) ∧
    (updateVehicleStatus sampleMongo (reqSetInUse adminUser) sampleDb).1.status ≠ 403 :=
  ⟨(updateVehicleStatus_contract asciiUpperCase 2027 100 idW sampleDb (reqSetInUse ownerA) ownerA vehicleOfB
      "in-use" rfl rfl (by decide) (by decide) (by decide)).1 (by decide),
   fun h => absurd ((updateVehicleStatus_contract asciiUpperCase 2027 100 idW sampleDb (reqSetInUse adminUser)
      adminUser vehicleOfB "in-use" rfl rfl (by decide) (by decide) (by decide)).2.2.mp h)
      (by decide)⟩

/-! ### Upper-casing and trimming -/

theorem upperChar_cases (c : Char) :
    upperChar c = c ∨ (isSpace c = false ∧ isSpace (upperChar c) = false ∧
      upperChar (upperChar c) = upperChar c) := by
  have h : upperChar c = c ∨ c ∈ ['a', 'b', 'c', 'd', 'e', 'f', 'g', 'h', 'i', 'j', 'k', 'l',
      'm', 'n', 'o', 'p', 'q', 'r', 's', 't', 'u', 'v', 'w', 'x', 'y', 'z'] := by
    unfold upperChar
    split <;> simp
  rcases h with h | h
  · exact Or.inl h
  · exact Or.inr ((by decide : ∀ c ∈ ['a', 'b', 'c', 'd', 'e', 'f', 'g', 'h', 'i', 'j', 'k',
      'l', 'm', 'n', 'o', 'p', 'q', 'r', 's', 't', 'u', 'v', 'w', 'x', 'y', 'z'],
      isSpace c = false ∧ isSpace (upperChar c) = false ∧
        upperChar (upperChar c) = upperChar c) c h)

theorem upperChar_idem (c : Char) : upperChar (upperChar c) = upperChar c := by
  rcases upperChar_cases c with h | h
  · rw [h, h]
  · exact h.2.2

theorem isSpace_upperChar (c : Char) : isSpace (upperChar c) = isSpace c := by
  rcases upperChar_cases c with h | h
  · rw [h]
  · rw [h.1, h.2.1]

theorem asciiUpperCase_idem (s : String) :
    asciiUpperCase (asciiUpperCase s) = asciiUpperCase s := by
  simp only [asciiUpperCase, List.map_map]
  congr 1
  exact List.map_congr_left (fun c _ => upperChar_idem c)

theorem dropWhile_map_upperChar (l : List Char) :
    (l.map upperChar).dropWhile isSpace = (l.dropWhile isSpace).map upperChar := by
  induction l with
  | nil => rfl
  | cons c l ih =>
    simp only [List.map_cons, List.dropWhile_cons, isSpace_upperChar]
    split
    · exact ih
    · rfl

theorem trim_asciiUpperCase (s : String) :
    trim (asciiUpperCase s) = asciiUpperCase (trim s) := by
  simp only [trim, asciiUpperCase, dropWhile_map_upperChar, ← List.map_reverse]

theorem dropWhile_isSpace_of_head (l : List Char)
    (h : ∀ c, l.head? = some c → isSpace c = false) : l.dropWhile isSpace = l := by
  cases l with
  | nil => rfl
  | cons c l => rw [List.dropWhile_cons, h c rfl]; rfl

theorem head_dropWhile_isSpace (l : List Char) :
    ∀ c, (l.dropWhile isSpace).head? = some c → isSpace c = false := by
  induction l with
  | nil => intro c h; simp at h
  | cons a l ih =>
    intro c h
    rw [List.dropWhile_cons] at h
    by_cases ha : isSpace a = true
    · rw [if_pos ha] at h
      exact ih c h
    · rw [if_neg ha] at h
      simp only [List.head?_cons, Option.some.injEq] at h
      rw [← h]
      simpa using ha

theorem trim_idem (s : String) : trim (trim s) = trim s := by
  have key : ∀ l : List Char,
      (((((l.dropWhile isSpace).reverse.dropWhile isSpace).reverse).dropWhile
        isSpace).reverse.dropWhile isSpace).reverse =
      ((l.dropWhile isSpace).reverse.dropWhile isSpace).reverse := by
    intro l
    have h1 : (((l.dropWhile isSpace).reverse.dropWhile isSpace).reverse).dropWhile isSpace =
        ((l.dropWhile isSpace).reverse.dropWhile isSpace).reverse := by
      apply dropWhile_isSpace_of_head
      intro c hc
      obtain ⟨x, hx⟩ := List.dropWhile_suffix isSpace (l := (l.dropWhile isSpace).reverse)
      have hrev : ((l.dropWhile isSpace).reverse.dropWhile isSpace).reverse ++ x.reverse =
          l.dropWhile isSpace := by
        rw [← List.reverse_append, hx, List.reverse_reverse]
      apply head_dropWhile_isSpace l c
      rw [← hrev]
      cases ht : ((l.dropWhile isSpace).reverse.dropWhile isSpace).reverse with
      | nil => rw [ht] at hc; simp at hc
      | cons a t =>
        rw [ht] at hc
        simpa using hc
    rw [h1, List.reverse_reverse]
    rw [dropWhile_isSpace_of_head _ (head_dropWhile_isSpace _)]
  simp only [trim, key]

/-- Upper-casing of ASCII letters keeps a trimmed string trimmed. -/
theorem trim_asciiUpperCase_trim (s : String) :
    trim (asciiUpperCase (trim s)) = asciiUpperCase (trim s) := by
  rw [trim_asciiUpperCase, trim_idem]

/-- A trimmed plate in upper case is a fixed point of the schema setters, for an upper-casing
that is idempotent and keeps a trimmed string trimmed. -/
theorem plateSetters_upper_trim (toUpperCase : String → String)
    (hidem : ∀ s, toUpperCase (toUpperCase s) = toUpperCase s)
    (htrim : ∀ s, trim (toUpperCase (trim s)) = toUpperCase (trim s)) (s : String) :
    plateSetters toUpperCase (toUpperCase (trim s)) = toUpperCase (trim s) := by
  rw [plateSetters, hidem, htrim]

/-! ### Adding a vehicle -/

theorem saveNew_ok (toUpperCase : String → String) (maxYear : Int) (now : Nat)
    (newId : ObjectId) (input : VehicleInput)
    (db db' : Db) (v : Vehicle) (h : saveNew toUpperCase maxYear now newId input db = .ok (v, db')) :
    db' = { db with vehicles := db.vehicles ++ [v] } ∧
    v.licensePlate = plateSetters toUpperCase input.licensePlate ∧
    ∀ w ∈ db.vehicles, w.licensePlate ≠ v.licensePlate := by
  unfold saveNew at h
  dsimp only at h
  split at h
  · split_ifs at h with h1 h2
    simp only [Except.ok.injEq, Prod.mk.injEq] at h
    obtain ⟨hv, hdb⟩ := h
    subst hv
    refine ⟨hdb.symm, rfl, ?_⟩
    intro w hw heq
    apply h2
    rw [List.any_eq_true]
    exact ⟨w, hw, by simpa using heq⟩
  · simp at h

/-- What `addVehicle` does to the in-memory store: nothing, unless it answers 201, and then
it appends one vehicle whose plate is the normalized plate of the request and is borne by no
stored vehicle. -/
theorem addVehicle_mongo_cases (toUpperCase : String → String) (maxYear : Int) (now : Nat)
    (newId : ObjectId) (req : Request)
    (db : Db) :
    ((addVehicle (mongo toUpperCase maxYear now newId) toUpperCase req db).1.status ≠ 201 ∧
      (addVehicle (mongo toUpperCase maxYear now newId) toUpperCase req db).2 = db) ∨
    (∃ p v, req.validationErrors = [] ∧ req.body.licensePlate = some p ∧
      (addVehicle (mongo toUpperCase maxYear now newId) toUpperCase req db).2 =
        { db with vehicles := db.vehicles ++ [v] } ∧
      v.licensePlate = plateSetters toUpperCase (toUpperCase p) ∧
      ∀ w ∈ db.vehicles, w.licensePlate ≠ v.licensePlate) := by
  have hfo : ∀ plate d, (mongo toUpperCase maxYear now newId).vehicleFindOne plate d =
      .ok (d.vehicles.find? (fun v => v.licensePlate == plateSetters toUpperCase plate)) := fun _ _ => rfl
  have hsn : ∀ input d, (mongo toUpperCase maxYear now newId).vehicleSaveNew input d =
      saveNew toUpperCase maxYear now newId input d := fun _ _ => rfl
  have hpop : ∀ w d, (mongo toUpperCase maxYear now newId).vehiclePopulate w d =
      .ok (populate d.users w) := fun _ _ => rfl
  cases hv : req.validationErrors with
  | cons e es =>
    left
    simp [addVehicle, hv, validationFailed]
  | nil =>
    cases hp : req.body.licensePlate with
    | none =>
      left
      simp [addVehicle, hv, hp, internalError]
    | some p =>
      cases hfind : db.vehicles.find? (fun v => v.licensePlate == plateSetters toUpperCase (toUpperCase p))
        with
      | some w =>
        left
        simp [addVehicle, hv, hp, hfo, hfind]
      | none =>
        cases hu : req.user with
        | none =>
          left
          simp [addVehicle, hv, hp, hfo, hfind, hu, internalError]
        | some u =>
          cases hsave : saveNew toUpperCase maxYear now newId
            { make := req.body.make, model := req.body.model, year := req.body.year
              licensePlate := toUpperCase p, capacity := req.body.capacity
              status := if req.body.status.getD "" = "" then "available"
                        else req.body.status.getD ""
              ownerId := u._id } db with
          | error e =>
            left
            simp [addVehicle, hv, hp, hfo, hfind, hu, hsn, hsave, internalError]
          | ok r =>
            obtain ⟨v, db'⟩ := r
            obtain ⟨hdb, hplate, hfresh⟩ := saveNew_ok _ _ _ _ _ _ _ _ hsave
            right
            refine ⟨p, v, rfl, rfl, ?_, hplate, hfresh⟩
            simp [addVehicle, hv, hp, hfo, hfind, hu, hsn, hsave, hpop, hdb]

/-- C8: let `toUpperCase` be the upper-casing of the runtime, of which two facts are used: it
is idempotent, and it keeps a trimmed string trimmed.  Take two add-vehicle requests that
passed `addVehicleValidation` without violation and whose plates are equal after upper-casing,
from the same or from different owners.  If the first `addVehicle` succeeds (201), the store
has gained exactly one vehicle, whose plate is the upper-cased plate, and the second
`addVehicle`, at any later time, answers 409 and leaves the store as it was.  And `addVehicle`
on any request keeps the plates of the stored vehicles pairwise distinct. -/
theorem addVehicle_plate_conflict (toUpperCase : String → String)
    (hidem : ∀ s, toUpperCase (toUpperCase s) = toUpperCase s)
    (htrimmed : ∀ s, trim (toUpperCase (trim s)) = toUpperCase (trim s))
    (maxYear maxYear' : Int) (now now' : Nat)
    (newId newId' : ObjectId) (db db1 : Db) (raw1 raw2 req1 req2 : Request)
    (p1 p2 : String) (res1 : Response)
    (hv1 : addVehicleValidation maxYear raw1 = .next req1) (_ : req1.validationErrors = [])
    (hv2 : addVehicleValidation maxYear' raw2 = .next req2) (he2 : req2.validationErrors = [])
    (hp1 : req1.body.licensePlate = some p1) (hp2 : req2.body.licensePlate = some p2)
    (hup : toUpperCase p1 = toUpperCase p2)
    (h1 : addVehicle (mongo toUpperCase maxYear now newId) toUpperCase req1 db = (res1, db1))
    (hs1 : res1.status = 201) :
    (∃ v, db1 = { db with vehicles := db.vehicles ++ [v] } ∧
      v.licensePlate = toUpperCase p1) ∧
    (∃ m, addVehicle (mongo toUpperCase maxYear' now' newId') toUpperCase req2 db1 =
      ({ status := 409, success := false, message := m }, db1)) ∧
    (∀ (req : Request) (d : Db), (d.vehicles.map (fun v => v.licensePlate)).Nodup →
      ((addVehicle (mongo toUpperCase maxYear now newId) toUpperCase req d).2.vehicles.map
        (fun v => v.licensePlate)).Nodup) := by
  have htrim : ∀ (my : Int) (raw req : Request) (p : String),
      addVehicleValidation my raw = .next req → req.body.licensePlate = some p →
      plateSetters toUpperCase (toUpperCase p) = toUpperCase p := by
    intro my raw req p hv hp
    simp only [addVehicleValidation, Step.next.injEq] at hv
    rw [← hv] at hp
    simp only [Option.map_eq_some'] at hp
    obtain ⟨p0, -, rfl⟩ := hp
    exact plateSetters_upper_trim toUpperCase hidem htrimmed p0
  have first : ∃ v, db1 = { db with vehicles := db.vehicles ++ [v] } ∧
      v.licensePlate = toUpperCase p1 := by
    rcases addVehicle_mongo_cases toUpperCase maxYear now newId req1 db with h | h
    · rw [h1] at h
      exact absurd hs1 h.1
    · obtain ⟨p, v, -, hp, hdb, hplate, -⟩ := h
      rw [hp1] at hp
      cases hp
      rw [h1] at hdb
      exact ⟨v, hdb, by rw [hplate, htrim maxYear raw1 req1 p1 hv1 hp1]⟩
  refine ⟨first, ?_, ?_⟩
  · obtain ⟨v, hdb, hplate⟩ := first
    have hfind : (db1.vehicles.find?
        (fun w => w.licensePlate == plateSetters toUpperCase (toUpperCase p2))).isSome =
        true := by
      rw [List.find?_isSome]
      refine ⟨v, by rw [hdb]; simp, ?_⟩
      rw [htrim maxYear' raw2 req2 p2 hv2 hp2, ← hup, hplate]
      simp
    obtain ⟨w, hw⟩ := Option.isSome_iff_exists.mp hfind
    have hfo : (mongo toUpperCase maxYear' now' newId').vehicleFindOne (toUpperCase p2) db1 =
        .ok (some w) := by
      show Except.ok _ = _
      rw [hw]
    exact ⟨"Vehicle with this license plate already exists",
      by simp only [addVehicle, he2, hp2, hfo, List.isEmpty_nil, Bool.not_true,
        Bool.false_eq_true, if_false]⟩
  · intro req d hd
    rcases addVehicle_mongo_cases toUpperCase maxYear now newId req d with h | h
    · rw [h.2]
      exact hd
    · obtain ⟨p, v, -, -, hdb, -, hfresh⟩ := h
      rw [hdb]
      simp only [List.map_append, List.map_cons, List.map_nil]
      rw [List.nodup_append]
      refine ⟨hd, List.nodup_singleton _, ?_⟩
      intro x hx hx'
      simp only [List.mem_singleton] at hx'
      subst hx'
      simp only [List.mem_map] at hx
      obtain ⟨w, hw, hwp⟩ := hx
      exact hfresh w hw hwp

/-- C8, on the sample store, with the upper-casing of ASCII letters for the ASCII plates of
the sample: owner A adds the plate `abc123` and owner B then adds `ABC123`; the stored plate
is the upper-cased one and the second call gets 409. -/
theorem addVehicle_plate_conflict_witness :
    (∃ v, (addVehicle sampleMongo asciiUpperCase (reqAdd ownerA "abc123") sampleDb).2 =
        { sampleDb with vehicles := sampleDb.vehicles ++ [v] } ∧
      v.licensePlate = asciiUpperCase "abc123") ∧
    (∃ m, addVehicle (mongo asciiUpperCase 2027 101 idA) asciiUpperCase
        (reqAdd ownerB "ABC123")
        (addVehicle sampleMongo asciiUpperCase (reqAdd ownerA "abc123") sampleDb).2 =
      ({ status := 409, success := false, message := m },
       (addVehicle sampleMongo asciiUpperCase (reqAdd ownerA "abc123") sampleDb).2)) ∧
    asciiUpperCase "abc123" = "ABC123" :=
  have h := addVehicle_plate_conflict asciiUpperCase asciiUpperCase_idem
    trim_asciiUpperCase_trim 2027 2027 100 101 idW idA sampleDb
    (addVehicle sampleMongo asciiUpperCase (reqAdd ownerA "abc123") sampleDb).2
    (reqAdd ownerA "abc123") (reqAdd ownerB "ABC123")
    (reqAdd ownerA "abc123") (reqAdd ownerB "ABC123") "abc123" "ABC123"
    (addVehicle sampleMongo asciiUpperCase (reqAdd ownerA "abc123") sampleDb).1
    (by decide) (by decide) (by decide) (by decide) rfl rfl (by decide) rfl (by decide)
  ⟨h.1, h.2.1, by decide⟩

/-! ### The messages of the credential verifier -/

/-- C12: when the header is present with a non-empty token and verification of the token
fails with the error `e`, `verifyToken` answers 401 with a message chosen by `e.name`: the
expiry message for `TokenExpiredError`, the invalid-token message for `JsonWebTokenError`
(malformed or badly signed), the not-yet-valid message for `NotBeforeError` and the generic
message for any other error.  A missing header, an empty token and a user that is not found
get 401 with messages of their own, and the seven messages are pairwise distinct. -/
theorem verifyToken_failure_messages (jwtVerify : String → Except JsError Decoded)
    (findById : Option String → Except JsError (Option User)) (req : Request) (h : String)
    (e : JsError) (ha : req.authorization = some h) (h0 : h ≠ "") (ht : bearerToken h ≠ "")
    (hj : jwtVerify (bearerToken h) = .error e) :
    (verifyToken jwtVerify findById req = .send { status := 401, success := false, message :=
      if e.name = "TokenExpiredError" then
        "Access denied. Token has expired. Please log in again"
      else if e.name = "JsonWebTokenError" then "Access denied. Invalid token"
      else if e.name = "NotBeforeError" then "Access denied. Token not yet valid"
      else "Access denied. Token verification failed" }) ∧
    (∀ r : Request, r.authorization = none → verifyToken jwtVerify findById r =
      .send { status := 401, success := false, message := "Access denied. No token provided" }) ∧
    (∀ (r : Request) (a : String), r.authorization = some a → a ≠ "" → bearerToken a = "" →
      verifyToken jwtVerify findById r =
        .send { status := 401, success := false
                message := "Access denied. Invalid token format" }) ∧
    (∀ (r : Request) (a : String) (d : Decoded), r.authorization = some a → a ≠ "" →
      bearerToken a ≠ "" → jwtVerify (bearerToken a) = .ok d → findById d.userId = .ok none →
      verifyToken jwtVerify findById r =
        .send { status := 401, success := false, message := "Access denied. User not found" }) ∧
    ["Access denied. Token has expired. Please log in again", "Access denied. Invalid token",
     "Access denied. Token not yet valid", "Access denied. Token verification failed",
     "Access denied. No token provided", "Access denied. Invalid token format",
     "Access denied. User not found"].Nodup := by
  refine ⟨?_, ?_, ?_, ?_, by decide⟩
  · simp only [verifyToken, ha, h0, ht, if_false, hj, verifyTokenCatch, unauthenticated,
      beq_iff_eq]
    split_ifs <;> rfl
  · intro r hr
    simp only [verifyToken, hr, unauthenticated]
  · intro r a hr hne hemp
    simp only [verifyToken, hr, hne, hemp, if_false, if_true, unauthenticated]
  · intro r a d hr hne htok hver hfind
    simp only [verifyToken, hr, hne, htok, if_false, hver, hfind, unauthenticated]

/-- C12, on the sample verifier: the token `zzz` is reported as malformed and gets the
invalid-token message. -/
theorem verifyToken_failure_messages_witness :
    verifyToken sampleJwt (fun id => sampleMongo.userFindById id sampleDb)
        { authorization := some "Bearer zzz" } =
      .send { status := 401, success := false, message := "Access denied. Invalid token" } :=
  (verifyToken_failure_messages sampleJwt (fun id => sampleMongo.userFindById id sampleDb)
    { authorization := some "Bearer zzz" } "Bearer zzz" { name := "JsonWebTokenError" }
    rfl (by decide) (by decide) (by decide)).1

/-! ### Listings -/

theorem bitLength_le (fuel : Nat) : ∀ (a k : Nat), a < 2 ^ k → bitLength fuel a ≤ k := by
  induction fuel with
  | zero => intro a k _; exact Nat.zero_le _
  | succ fuel ih =>
    intro a k h
    unfold bitLength
    by_cases h0 : a = 0
    · rw [if_pos h0]; exact Nat.zero_le _
    · rw [if_neg h0]
      cases k with
      | zero => omega
      | succ k =>
        have : a / 2 < 2 ^ k := by
          rw [Nat.pow_succ] at h
          omega
        exact Nat.succ_le_succ (ih (a / 2) k this)

/-- An integer below `2 ^ 53` in magnitude is a double. -/
theorem roundDouble_exact (n : Int) (h : n.natAbs < 2 ^ 53) : roundDouble n = .int n := by
  unfold roundDouble
  simp only []
  rw [if_pos (bitLength_le 1025 _ 53 h)]

theorem window_length {α : Type} (xs : List α) (page limit : Nat) :
    ((xs.drop ((page - 1) * limit)).take limit).length =
      min limit (xs.length - (page - 1) * limit) := by
  simp

theorem sortByCreatedAtDesc_length {α : Type} (createdAt : α → Nat) (docs : List α) :
    (sortByCreatedAtDesc createdAt docs).length = docs.length :=
  List.length_insertionSort _ docs

theorem digitChar_toNat (k : Nat) (h : k < 10) : (Nat.digitChar k).toNat = 48 + k := by
  interval_cases k <;> rfl

theorem toDigitsCore_spec (fuel : Nat) : ∀ (n : Nat) (ds : List Char), n < fuel →
    ∃ l, Nat.toDigitsCore 10 fuel n ds = l ++ ds ∧ l ≠ [] ∧
      (∀ c ∈ l, 48 ≤ c.toNat ∧ c.toNat ≤ 57) ∧
      l.foldl (fun acc c => acc * 10 + (c.toNat - 48)) 0 = n := by
  induction fuel with
  | zero => intro n ds h; omega
  | succ fuel ih =>
    intro n ds h
    have hd := digitChar_toNat (n % 10) (Nat.mod_lt _ (by decide))
    unfold Nat.toDigitsCore
    by_cases h0 : n / 10 = 0
    · simp only [h0, if_true]
      refine ⟨[Nat.digitChar (n % 10)], rfl, by simp, ?_, ?_⟩
      · intro c hc
        simp only [List.mem_singleton] at hc
        subst hc
        omega
      · simp only [List.foldl_cons, List.foldl_nil, hd]
        omega
    · simp only [h0, if_false]
      obtain ⟨l, hl, hne, hdig, hval⟩ := ih (n / 10) (Nat.digitChar (n % 10) :: ds) (by omega)
      refine ⟨l ++ [Nat.digitChar (n % 10)], by rw [hl]; simp, by simp, ?_, ?_⟩
      · intro c hc
        rw [List.mem_append, List.mem_singleton] at hc
        rcases hc with hc | hc
        · exact hdig c hc
        · subst hc
          omega
      · rw [List.foldl_append, hval]
        simp only [List.foldl_cons, List.foldl_nil, hd]
        omega

theorem leadingDigits_decimal (l : List Char) (h : ∀ c ∈ l, 48 ≤ c.toNat ∧ c.toNat ≤ 57) :
    leadingDigits 10 l = l.map (fun c => c.toNat - 48) := by
  induction l with
  | nil => rfl
  | cons c l ih =>
    have hc := h c (List.mem_cons_self _ _)
    have hv : digitValue c = some (c.toNat - 48) := by
      simp only [digitValue]
      rw [if_pos hc]
    simp only [leadingDigits, hv, List.map_cons]
    rw [if_pos (by omega), ih (fun c hc => h c (List.mem_cons_of_mem _ hc))]

theorem parseInt_digits (l : List Char) (hne : l ≠ [])
    (h : ∀ c ∈ l, 48 ≤ c.toNat ∧ c.toNat ≤ 57) :
    parseInt (some (String.mk l)) =
      roundDouble ((l.foldl (fun acc c => acc * 10 + (c.toNat - 48)) 0 : Nat) : Int) := by
  cases l with
  | nil => exact absurd rfl hne
  | cons c rest =>
    have hc := h c (List.mem_cons_self _ _)
    have hsp : isSpace c = false := by
      simp only [isSpace]
      simp
      omega
    have hminus : c ≠ '-' := by
      rintro rfl
      exact absurd hc (by decide)
    have hplus : c ≠ '+' := by
      rintro rfl
      exact absurd hc (by decide)
    have hx : ∀ t, rest ≠ 'x' :: t := by
      rintro t rfl
      exact absurd (h 'x' (by simp)) (by decide)
    have hX : ∀ t, rest ≠ 'X' :: t := by
      rintro t rfl
      exact absurd (h 'X' (by simp)) (by decide)
    have hdrop : (c :: rest).dropWhile isSpace = c :: rest := by
      rw [List.dropWhile_cons, hsp]
      rfl
    have hs : (match c :: rest with
        | '-' :: t => t
        | '+' :: t => t
        | _ => c :: rest) = c :: rest := by
      split
      · next heq => exact absurd (List.cons.inj heq).1 hminus
      · next heq => exact absurd (List.cons.inj heq).1 hplus
      · rfl
    have hr : (match c :: rest with
        | '0' :: 'x' :: _ => 16
        | '0' :: 'X' :: _ => 16
        | _ => 10) = 10 := by
      split
      · next heq => exact absurd (List.cons.inj heq).2 (hx _)
      · next heq => exact absurd (List.cons.inj heq).2 (hX _)
      · rfl
    have hneg : ((c :: rest).head? == some '-') = false := by
      simp [hminus]
    simp only [parseInt, Option.getD_some, hdrop, hs, hr, hneg]
    rw [if_neg (by decide : ¬((10 : Nat) = 16)), leadingDigits_decimal _ h]
    simp only [List.map_cons, List.isEmpty_cons, Bool.false_eq_true, if_false, digitsValue,
      List.foldl_cons, List.foldl_map]

/-- The numeral of a natural number is read as the double nearest to the number, which below
`2 ^ 53` is the number. -/
theorem parseInt_repr (n : Nat) :
    parseInt (some (Nat.repr n)) = roundDouble (n : Int) ∧
    (n < 2 ^ 53 → parseInt (some (Nat.repr n)) = .int (n : Int)) := by
  obtain ⟨l, hl, hne, hdig, hval⟩ := toDigitsCore_spec (n + 1) n [] (Nat.lt_succ_self n)
  have : Nat.repr n = String.mk l := by
    simp only [Nat.repr, Nat.toDigits, hl, List.append_nil, List.asString]
  have h1 : parseInt (some (Nat.repr n)) = roundDouble (n : Int) := by
    rw [this, parseInt_digits l hne hdig, hval]
  exact ⟨h1, fun hn => by rw [h1, roundDouble_exact _ (by simpa using hn)]⟩

theorem leadingDigits_append (l junk : List Char)
    (h : ∀ c ∈ l, 48 ≤ c.toNat ∧ c.toNat ≤ 57)
    (hj : ∀ c, junk.head? = some c → ¬(48 ≤ c.toNat ∧ c.toNat ≤ 57)) :
    leadingDigits 10 (l ++ junk) = l.map (fun c => c.toNat - 48) := by
  induction l with
  | nil =>
    cases junk with
    | nil => rfl
    | cons c t =>
      have hc := hj c rfl
      simp only [List.nil_append, leadingDigits, digitValue, List.map_nil]
      split_ifs <;> first | rfl | (exfalso; omega) | (simp only []; split_ifs <;> first | rfl | omega)
  | cons c l ih =>
    have hc := h c (List.mem_cons_self _ _)
    have hv : digitValue c = some (c.toNat - 48) := by
      simp only [digitValue]
      rw [if_pos hc]
    simp only [List.cons_append, leadingDigits, hv, List.map_cons]
    rw [if_pos (by omega)]
    exact congrArg _ (ih (fun c hc => h c (List.mem_cons_of_mem _ hc)))

/-- A decimal numeral followed by other characters is read as the numeral. -/
theorem parseInt_leading (l junk : List Char) (hne : l ≠ [])
    (h : ∀ c ∈ l, 48 ≤ c.toNat ∧ c.toNat ≤ 57)
    (hj : ∀ c, junk.head? = some c → ¬(48 ≤ c.toNat ∧ c.toNat ≤ 57))
    (hx : l = ['0'] → ∀ c, junk.head? = some c → c ≠ 'x' ∧ c ≠ 'X') :
    parseInt (some (String.mk (l ++ junk))) =
      roundDouble ((l.foldl (fun acc c => acc * 10 + (c.toNat - 48)) 0 : Nat) : Int) := by
  cases l with
  | nil => exact absurd rfl hne
  | cons c rest =>
    have hc := h c (List.mem_cons_self _ _)
    have hsp : isSpace c = false := by
      simp only [isSpace]
      simp
      omega
    have hminus : c ≠ '-' := by
      rintro rfl
      exact absurd hc (by decide)
    have hplus : c ≠ '+' := by
      rintro rfl
      exact absurd hc (by decide)
    have hradix : ∀ x : Char, (x = 'x' ∨ x = 'X') → ∀ t, c = '0' → rest ++ junk ≠ x :: t := by
      intro x hxx t hc0 heq
      cases rest with
      | nil =>
        subst hc0
        have := hx rfl x (by rw [List.nil_append] at heq; rw [heq]; rfl)
        rcases hxx with hxx | hxx
        · exact this.1 hxx
        · exact this.2 hxx
      | cons d rest' =>
        have hd := h d (by simp)
        rw [List.cons_append] at heq
        have hdx := (List.cons.inj heq).1
        rw [hdx] at hd
        rcases hxx with hxx | hxx <;> subst hxx <;> exact absurd hd (by decide)
    have hdrop : (c :: (rest ++ junk)).dropWhile isSpace = c :: (rest ++ junk) := by
      rw [List.dropWhile_cons, hsp]
      rfl
    have hs : (match c :: (rest ++ junk) with
        | '-' :: t => t
        | '+' :: t => t
        | _ => c :: (rest ++ junk)) = c :: (rest ++ junk) := by
      split
      · next heq => exact absurd (List.cons.inj heq).1 hminus
      · next heq => exact absurd (List.cons.inj heq).1 hplus
      · rfl
    have hr : (match c :: (rest ++ junk) with
        | '0' :: 'x' :: _ => 16
        | '0' :: 'X' :: _ => 16
        | _ => 10) = 10 := by
      split
      · next heq =>
        exact absurd (List.cons.inj heq).2 (hradix 'x' (Or.inl rfl) _ (List.cons.inj heq).1)
      · next heq =>
        exact absurd (List.cons.inj heq).2 (hradix 'X' (Or.inr rfl) _ (List.cons.inj heq).1)
      · rfl
    have hneg : ((c :: (rest ++ junk)).head? == some '-') = false := by
      simp [hminus]
    have hlead := leadingDigits_append (c :: rest) junk h hj
    rw [List.cons_append] at hlead
    simp only [parseInt, Option.getD_some, List.cons_append, hdrop, hs, hr, hneg]
    rw [if_neg (by decide : ¬((10 : Nat) = 16)), hlead]
    simp only [List.map_cons, List.isEmpty_cons, Bool.false_eq_true, if_false, digitsValue,
      List.foldl_cons, List.foldl_map]

/-- The JavaScript `(page - 1) * limit` is exact when `page * limit` is below `2 ^ 53`. -/
theorem skip_exact (page limit : Nat) (hp : 0 < page) (hl : 0 < limit)
    (hb : page * limit < 2 ^ 53) :
    ((JsNumber.int (page : Int)).sub (.int 1)).mul (.int (limit : Int)) =
      .int (((page - 1) * limit : Nat) : Int) := by
  have h1 : page ≤ page * limit := Nat.le_mul_of_pos_right page hl
  have h2 : (page - 1) * limit ≤ page * limit := Nat.mul_le_mul_right limit (Nat.sub_le page 1)
  have hsub : (page : Int) - 1 = ((page - 1 : Nat) : Int) := by
    rw [Nat.cast_sub hp]
    rfl
  have hr1 : roundDouble ((page : Int) - 1) = .int ((page - 1 : Nat) : Int) := by
    rw [hsub]
    exact roundDouble_exact _ (by rw [Int.natAbs_ofNat]; omega)
  have hr2 : roundDouble (((page - 1 : Nat) : Int) * (limit : Int)) =
      .int (((page - 1) * limit : Nat) : Int) := by
    rw [← Nat.cast_mul]
    exact roundDouble_exact _ (by rw [Int.natAbs_ofNat]; omega)
  simp only [JsNumber.sub, JsNumber.mul, hr1, hr2]

/-- The cursor of a listing with positive `page` and `limit` whose product is below `2 ^ 53`:
the window of `limit` documents after the first `(page - 1) * limit` of the sorted
collection. -/
theorem runCursor_page {α : Type} (createdAt : α → Nat) (owner : Option ObjectId)
    (docs : List α) (page limit : Nat) (hp : 0 < page) (hl : 0 < limit)
    (hb : page * limit < 2 ^ 53) :
    runCursor createdAt
      ((((Query.find owner).skip (.int (((page - 1) * limit : Nat) : Int))).limit
        (.int (limit : Int))).sort) docs =
      .ok (((sortByCreatedAtDesc createdAt docs).drop ((page - 1) * limit)).take limit) := by
  have h2 : (page - 1) * limit ≤ page * limit := Nat.mul_le_mul_right limit (Nat.sub_le page 1)
  have h3 : limit ≤ page * limit := Nat.le_mul_of_pos_left limit hp
  have hcond : ¬((((page - 1) * limit : Nat) : Int) < 0 ∨
      2 ^ 63 ≤ (((page - 1) * limit : Nat) : Int) ∨ 2 ^ 63 ≤ (limit : Int).natAbs) := by
    rw [Int.natAbs_ofNat]
    omega
  simp only [runCursor, Query.sort, Query.limit, Query.skip, Query.find, if_true]
  rw [if_neg hcond, if_neg (by omega), Int.toNat_ofNat, Int.natAbs_ofNat]

/-- The JavaScript `Math.ceil(total / limit)` on a count and a positive limit. -/
theorem ceilDiv_count (n limit : Nat) (hl : 0 < limit) :
    ceilDiv (.int (n : Int)) (.int (limit : Int)) = .int ⌈(n : ℚ) / (limit : ℚ)⌉ := by
  simp only [ceilDiv]
  rw [if_neg (by omega), Int.fdiv_eq_ediv _ (Int.ofNat_nonneg limit)]
  have h := Rat.floor_intCast_div_natCast (-(n : ℤ)) limit
  rw [← h]
  push_cast
  rw [neg_div, Int.floor_neg, neg_neg]

/-- The value of `x || d` when it is a finite number that is not negative: positive, the
default for `NaN` and for zero, and the number read otherwise. -/
theorem orDefault_cases (x : JsNumber) (d k : Nat) (hd : 0 < d)
    (h : orDefault x (.int (d : Int)) = .int (k : Int)) :
    0 < k ∧ ((x = .nan ∨ x = .int 0) → k = d) ∧
    (∀ n : Nat, 0 < n → x = .int (n : Int) → k = n) := by
  cases x with
  | nan =>
    simp only [orDefault, JsNumber.int.injEq, Nat.cast_inj] at h
    subst h
    exact ⟨hd, fun _ => rfl, fun n _ hn => by simp at hn⟩
  | infinity s => simp [orDefault] at h
  | int m =>
    by_cases h0 : m = 0
    · subst h0
      simp only [orDefault, if_true, JsNumber.int.injEq, Nat.cast_inj] at h
      subst h
      refine ⟨hd, fun _ => rfl, fun n hn hx => ?_⟩
      simp only [JsNumber.int.injEq] at hx
      omega
    · simp only [orDefault, if_neg h0, JsNumber.int.injEq] at h
      refine ⟨by omega, fun hx => ?_, fun n _ hx => ?_⟩
      · rcases hx with hx | hx
        · simp at hx
        · simp only [JsNumber.int.injEq] at hx
          exact absurd hx h0
      · simp only [JsNumber.int.injEq] at hx
        omega

/-- The listings on the in-memory store when the page and the limit that the handlers compute
are the positive numbers `page` and `limit`, with a product below `2 ^ 53`, and the
collections hold fewer than `2 ^ 53` documents. -/
theorem listing_of_page_limit (toUpperCase : String → String) (maxYear : Int) (now : Nat)
    (newId : ObjectId) (db : Db) (req : Request) (page limit : Nat) (hp : 0 < page)
    (hl : 0 < limit) (hb : page * limit < 2 ^ 53)
    (hu : db.users.length < 2 ^ 53) (hv : db.vehicles.length < 2 ^ 53)
    (hpage : orDefault (parseInt (lookup req.query "page")) (.int 1) = .int (page : Int))
    (hlimit : orDefault (parseInt (lookup req.query "limit")) (.int 10) = .int (limit : Int)) :
    getAllUsers (mongo toUpperCase maxYear now newId) req db =
      ({ status := 200, success := true, message := "Users retrieved successfully"
         payload := .users
           ((((sortByCreatedAtDesc (fun u => u.createdAt) db.users).drop
             ((page - 1) * limit)).take limit).map User.selectMinusPassword)
           { page := .int page, limit := .int limit, total := .int db.users.length
             pages := .int ⌈(db.users.length : ℚ) / (limit : ℚ)⌉ } }, db) ∧
    ∀ message filter, listVehicles (mongo toUpperCase maxYear now newId) message filter req db =
      ({ status := 200, success := true, message := message
         payload := .vehicles
           ((((sortByCreatedAtDesc (fun v => v.createdAt) (ownedBy filter db.vehicles)).drop
             ((page - 1) * limit)).take limit).map (populate db.users))
           { page := .int page, limit := .int limit
             total := .int (ownedBy filter db.vehicles).length
             pages := .int ⌈((ownedBy filter db.vehicles).length : ℚ) / (limit : ℚ)⌉ } },
       db) := by
  have howned : ∀ filter, (ownedBy filter db.vehicles).length < 2 ^ 53 := by
    intro filter
    cases filter with
    | none => exact hv
    | some o => exact lt_of_le_of_lt (List.length_filter_le _ _) hv
  have hround : ∀ n : Nat, n < 2 ^ 53 → roundDouble (n : Int) = .int (n : Int) :=
    fun n hn => roundDouble_exact _ (by rw [Int.natAbs_ofNat]; exact hn)
  have huf : ∀ q, (mongo toUpperCase maxYear now newId).userFind q db =
      runCursor (fun u => u.createdAt) q db.users := fun _ => rfl
  have huc : (mongo toUpperCase maxYear now newId).userCountDocuments db =
      .ok db.users.length := rfl
  have hvf : ∀ filter, (mongo toUpperCase maxYear now newId).vehicleFind
      ((((Query.find filter).skip (.int (((page - 1) * limit : Nat) : Int))).limit
        (.int (limit : Int))).sort) db =
      .ok ((((sortByCreatedAtDesc (fun v => v.createdAt) (ownedBy filter db.vehicles)).drop
        ((page - 1) * limit)).take limit).map (populate db.users)) := by
    intro filter
    show Except.map _ (runCursor (fun v => v.createdAt) _ (ownedBy filter db.vehicles)) = _
    rw [runCursor_page _ _ _ _ _ hp hl hb]
    rfl
  have hvc : ∀ filter, (mongo toUpperCase maxYear now newId).vehicleCountDocuments filter db =
      .ok (ownedBy filter db.vehicles).length := fun _ => rfl
  refine ⟨?_, fun message filter => ?_⟩
  · simp only [getAllUsers, hpage, hlimit, skip_exact page limit hp hl hb, huf,
      runCursor_page _ _ _ _ _ hp hl hb, huc, hround _ hu, ceilDiv_count _ _ hl]
  · simp only [listVehicles, hpage, hlimit, skip_exact page limit hp hl hb, hvf, hvc,
      hround _ (howned filter), ceilDiv_count _ _ hl]

set_option maxRecDepth 100000 in
set_option exponentiation.threshold 2000 in
/-- C10 (fails on the code): the page `10 ^ 400` is a positive integer, but `parseInt` reads its
numeral as `Infinity`, the skip is `Infinity`, the store rejects the query and the listing of
twelve users answers 500: no items, no total and no page count are returned. -/
theorem listing_fails_beyond_doubles :
    parseInt (some hugeNumeral) = .infinity false ∧
    getAllUsers sampleMongo (reqListing [("page", hugeNumeral), ("limit", "5")])
        { users := twelveUsers } =
      (internalError "Internal server error while retrieving users", { users := twelveUsers }) := by
  exact ⟨by decide, by decide⟩

/-- C10 (as amended): for positive `page` and `limit` read from the query with
`page * limit` below `2 ^ 53`, and collections of fewer than `2 ^ 53` documents (numbers that
JavaScript holds exactly; by `parseInt_repr` the numeral of such a number is read as the
number), each listing handler answers 200 with the items at the positions
`(page - 1) * limit` to `page * limit - 1` of its collection in descending order of creation
time (all users, all vehicles, or the vehicles of the caller), that is
`min limit (n - (page - 1) * limit)` items of the `n`, and reports `page`, `limit`,
`total = n` and `pages = ⌈n / limit⌉`. -/
theorem listing_pagination (toUpperCase : String → String) (maxYear : Int) (now : Nat)
    (newId : ObjectId) (db : Db)
    (req : Request) (page limit : Nat) (hp : 0 < page) (hl : 0 < limit)
    (hb : page * limit < 2 ^ 53)
    (hu : db.users.length < 2 ^ 53) (hv : db.vehicles.length < 2 ^ 53)
    (hpage : parseInt (lookup req.query "page") = .int (page : Int))
    (hlimit : parseInt (lookup req.query "limit") = .int (limit : Int)) :
    (∃ m items, getAllUsers (mongo toUpperCase maxYear now newId) req db =
        ({ status := 200, success := true, message := m
           payload := .users items
             { page := .int page, limit := .int limit, total := .int db.users.length
               pages := .int ⌈(db.users.length : ℚ) / (limit : ℚ)⌉ } }, db) ∧
        items = (((sortByCreatedAtDesc (fun u => u.createdAt) db.users).drop
          ((page - 1) * limit)).take limit).map User.selectMinusPassword ∧
        items.length = min limit (db.users.length - (page - 1) * limit)) ∧
    (∃ m items, getAllVehicles (mongo toUpperCase maxYear now newId) req db =
        ({ status := 200, success := true, message := m
           payload := .vehicles items
             { page := .int page, limit := .int limit, total := .int db.vehicles.length
               pages := .int ⌈(db.vehicles.length : ℚ) / (limit : ℚ)⌉ } }, db) ∧
        items = (((sortByCreatedAtDesc (fun v => v.createdAt) db.vehicles).drop
          ((page - 1) * limit)).take limit).map (populate db.users) ∧
        items.length = min limit (db.vehicles.length - (page - 1) * limit)) ∧
    (∀ u, req.user = some u →
      ∃ m items, getMyVehicles (mongo toUpperCase maxYear now newId) req db =
        ({ status := 200, success := true, message := m
           payload := .vehicles items
             { page := .int page, limit := .int limit
               total := .int (db.vehicles.filter (fun v => v.ownerId == u._id)).length
               pages := .int ⌈((db.vehicles.filter (fun v => v.ownerId == u._id)).length : ℚ) /
                 (limit : ℚ)⌉ } }, db) ∧
        items = (((sortByCreatedAtDesc (fun v => v.createdAt)
          (db.vehicles.filter (fun v => v.ownerId == u._id))).drop
          ((page - 1) * limit)).take limit).map (populate db.users) ∧
        items.length =
          min limit ((db.vehicles.filter (fun v => v.ownerId == u._id)).length -
            (page - 1) * limit)) := by
  have hnz : ∀ k : Nat, 0 < k → ∀ d, orDefault (.int (k : Int)) d = .int (k : Int) := by
    intro k hk d
    simp only [orDefault]
    rw [if_neg (by omega)]
  obtain ⟨husers, hvehicles⟩ := listing_of_page_limit toUpperCase maxYear now newId db req
    page limit hp hl hb hu hv (by rw [hpage]; exact hnz page hp _)
    (by rw [hlimit]; exact hnz limit hl _)
  refine ⟨?_, ?_, ?_⟩
  · refine ⟨"Users retrieved successfully", _, husers, rfl, ?_⟩
    rw [List.length_map, window_length, sortByCreatedAtDesc_length]
  · refine ⟨"All vehicles retrieved successfully", _, hvehicles _ none, rfl, ?_⟩
    rw [List.length_map, window_length, sortByCreatedAtDesc_length]
    rfl
  · intro u hu'
    refine ⟨"Vehicles retrieved successfully", _, ?_, rfl, ?_⟩
    · simp only [getMyVehicles, hu']
      exact hvehicles _ (some u._id)
    · rw [List.length_map, window_length, sortByCreatedAtDesc_length]

/-- C10 (as amended), at `page=2` and `limit=5` on twelve items: five items, the ones created
at the times 6 down to 2, `total = 12` and `pages = 3`, for the users and for the vehicles of
the caller. -/
theorem listing_pagination_witness :
    (∃ m items, getAllUsers sampleMongo (reqPageTwo adminUser) { users := twelveUsers } =
        ({ status := 200, success := true, message := m
           payload := .users items
             { page := .int 2, limit := .int 5, total := .int 12, pages := .int 3 } },
         { users := twelveUsers }) ∧
        items.length = 5 ∧ items.map (fun u => u.createdAt) = [6, 5, 4, 3, 2]) ∧
    (∃ m items, getMyVehicles sampleMongo (reqPageTwo ownerA)
          { users := [ownerA], vehicles := twelveVehicles } =
        ({ status := 200, success := true, message := m
           payload := .vehicles items
             { page := .int 2, limit := .int 5, total := .int 12, pages := .int 3 } },
         { users := [ownerA], vehicles := twelveVehicles }) ∧
        items.length = 5 ∧ items.map (fun v => v.doc.createdAt) = [6, 5, 4, 3, 2]) := by
  have hu := (listing_pagination asciiUpperCase 2027 100 idW { users := twelveUsers }
    (reqPageTwo adminUser) 2 5 (by decide) (by decide) (by decide) (by decide) (by decide)
    (by decide) (by decide)).1
  have hv := (listing_pagination asciiUpperCase 2027 100 idW
    { users := [ownerA], vehicles := twelveVehicles } (reqPageTwo ownerA) 2 5 (by decide)
    (by decide) (by decide) (by decide) (by decide) (by decide) (by decide)).2.2 ownerA rfl
  obtain ⟨m, items, he, hi, -⟩ := hu
  obtain ⟨m', items', he', hi', -⟩ := hv
  have c1 : ⌈((12 : ℕ) : ℚ) / ((5 : ℕ) : ℚ)⌉ = 3 := by
    have h := ceilDiv_count 12 5 (by decide)
    have h' : ceilDiv (.int ((12 : ℕ) : Int)) (.int ((5 : ℕ) : Int)) = .int 3 := by decide
    rw [h'] at h
    exact (JsNumber.int.inj h).symm
  refine ⟨⟨m, items, ?_, ?_, ?_⟩, ⟨m', items', ?_, ?_, ?_⟩⟩
  · refine he.trans ?_
    have : (({ users := twelveUsers } : Db).users.length) = 12 := by decide
    rw [this, c1]
    rfl
  · rw [hi]; decide
  · rw [hi]; decide
  · refine he'.trans ?_
    have : ((({ users := [ownerA], vehicles := twelveVehicles } : Db).vehicles.filter
        (fun v => v.ownerId == ownerA._id)).length) = 12 := by decide
    rw [this, c1]
    rfl
  · rw [hi']; decide
  · rw [hi']; decide

/-! ### The page and the limit of a listing -/

set_option maxRecDepth 100000 in
set_option exponentiation.threshold 2000 in
/-- C11 (fails on the code): the value `12abc` is not a positive integer, yet the listing uses
and reports page 12, not the default, and `2.7` gives limit 2; these follow from the way
`parseInt` reads a leading numeral.  The numeral of `10 ^ 400` is read as `Infinity`, which is
kept as the page, and the answer is 500.  A negative value is not replaced either: `-2` is
reported as the limit (with `pages = -1`), and the page `-1` makes the skip negative, which
the store rejects, so the answer is 500. -/
theorem listing_keeps_lenient_and_negative_values :
    listedUsers (getAllUsers sampleMongo (reqListing [("page", "12abc"), ("limit", "2.7")])
      sampleDb) =
      some ({ page := .int 12, limit := .int 2, total := .int 3, pages := .int 2 }, 0) ∧
    orDefault (parseInt (some hugeNumeral)) (.int 1) = .infinity false ∧
    (getAllUsers sampleMongo (reqListing [("page", hugeNumeral)]) sampleDb).1.status = 500 ∧
    listedUsers (getAllUsers sampleMongo (reqListing [("limit", "-2")]) sampleDb) =
      some ({ page := .int 1, limit := .int (-2), total := .int 3, pages := .int (-1) }, 2) ∧
    (getAllUsers sampleMongo (reqListing [("page", "-1")]) sampleDb).1.status = 500 := by
  exact ⟨by decide, by decide, by decide, by decide, by decide⟩

/-- C11 (as amended): take any values of the `page` and `limit` query parameters for which
the numbers that the handlers compute, `parseInt(value) || default`, are finite and not
negative, call them `page` and `limit`, with `page * limit` below `2 ^ 53` (and collections of
fewer than `2 ^ 53` documents).  Then `page` and `limit` are positive integers: the default
(1 and 10) when `parseInt` reads no number (a missing or empty value among them) or reads
zero, and the number it reads otherwise, which by `parseInt_leading` is the leading numeral
of a value such as `12abc` or `2.7`; and the three listing handlers use them for the window
and report them. -/
theorem listing_page_and_limit (toUpperCase : String → String) (maxYear : Int) (now : Nat)
    (newId : ObjectId) (db : Db) (req : Request) (page limit : Nat)
    (hpage : orDefault (parseInt (lookup req.query "page")) (.int 1) = .int (page : Int))
    (hlimit : orDefault (parseInt (lookup req.query "limit")) (.int 10) = .int (limit : Int))
    (hb : page * limit < 2 ^ 53)
    (hu : db.users.length < 2 ^ 53) (hv : db.vehicles.length < 2 ^ 53) :
    0 < page ∧ 0 < limit ∧
    ((parseInt (lookup req.query "page") = .nan ∨
      parseInt (lookup req.query "page") = .int 0) → page = 1) ∧
    (∀ n : Nat, 0 < n → parseInt (lookup req.query "page") = .int (n : Int) → page = n) ∧
    ((parseInt (lookup req.query "limit") = .nan ∨
      parseInt (lookup req.query "limit") = .int 0) → limit = 10) ∧
    (∀ n : Nat, 0 < n → parseInt (lookup req.query "limit") = .int (n : Int) → limit = n) ∧
    parseInt none = .nan ∧ parseInt (some "") = .nan ∧
    getAllUsers (mongo toUpperCase maxYear now newId) req db =
      ({ status := 200, success := true, message := "Users retrieved successfully"
         payload := .users
           ((((sortByCreatedAtDesc (fun u => u.createdAt) db.users).drop
             ((page - 1) * limit)).take limit).map User.selectMinusPassword)
           { page := .int page, limit := .int limit, total := .int db.users.length
             pages := .int ⌈(db.users.length : ℚ) / (limit : ℚ)⌉ } }, db) ∧
    getAllVehicles (mongo toUpperCase maxYear now newId) req db =
      ({ status := 200, success := true, message := "All vehicles retrieved successfully"
         payload := .vehicles
           ((((sortByCreatedAtDesc (fun v => v.createdAt) db.vehicles).drop
             ((page - 1) * limit)).take limit).map (populate db.users))
           { page := .int page, limit := .int limit, total := .int db.vehicles.length
             pages := .int ⌈(db.vehicles.length : ℚ) / (limit : ℚ)⌉ } }, db) ∧
    ∀ u, req.user = some u → getMyVehicles (mongo toUpperCase maxYear now newId) req db =
      ({ status := 200, success := true, message := "Vehicles retrieved successfully"
         payload := .vehicles
           ((((sortByCreatedAtDesc (fun v => v.createdAt)
             (db.vehicles.filter (fun v => v.ownerId == u._id))).drop
             ((page - 1) * limit)).take limit).map (populate db.users))
           { page := .int page, limit := .int limit
             total := .int (db.vehicles.filter (fun v => v.ownerId == u._id)).length
             pages := .int ⌈((db.vehicles.filter (fun v => v.ownerId == u._id)).length : ℚ) /
               (limit : ℚ)⌉ } }, db) := by
  obtain ⟨hp1, hp2, hp3⟩ := orDefault_cases (parseInt (lookup req.query "page")) 1 page
    (by decide) hpage
  obtain ⟨hl1, hl2, hl3⟩ := orDefault_cases (parseInt (lookup req.query "limit")) 10 limit
    (by decide) hlimit
  obtain ⟨husers, hvehicles⟩ := listing_of_page_limit toUpperCase maxYear now newId db req
    page limit hp1 hl1 hb hu hv hpage hlimit
  refine ⟨hp1, hl1, hp2, hp3, hl2, hl3, by decide, by decide, husers, hvehicles _ none, ?_⟩
  intro u hu'
  simp only [getMyVehicles, hu']
  exact hvehicles _ (some u._id)

/-- C11 (as amended), on the sample store: with `page=12abc` and `limit=2.7` the page is 12 and
the limit is 2, both positive, and the listing of the users answers 200 and reports them. -/
theorem listing_page_and_limit_witness :
    0 < 12 ∧ 0 < 2 ∧
    listedUsers (getAllUsers sampleMongo (reqListing [("page", "12abc"), ("limit", "2.7")])
      sampleDb) =
      some ({ page := .int 12, limit := .int 2, total := .int 3
              pages := .int ⌈((3 : ℕ) : ℚ) / ((2 : ℕ) : ℚ)⌉ }, 0) := by
  have h := listing_page_and_limit asciiUpperCase 2027 100 idW sampleDb
    (reqListing [("page", "12abc"), ("limit", "2.7")]) 12 2 (by decide) (by decide)
    (by decide) (by decide) (by decide)
  refine ⟨h.1, h.2.1, ?_⟩
  have hres : getAllUsers sampleMongo (reqListing [("page", "12abc"), ("limit", "2.7")])
      sampleDb = _ := h.2.2.2.2.2.2.2.2.1
  rw [hres]
  rfl

end TravelApi
